import Mathlib

/-!
# CORS filter of `siestacontrib/cors` (`src/cors/cors.go`)

A shallow embedding of the CORS middleware: the policy (`Cors`), its constructors
(`New`, `DefaultNew`), the membership checks, the preflight handler and `Filter`.

Modelling conventions.

* A Go `string` is a list of Unicode code points (`GoString`), i.e. well-formed UTF-8 text.
* `strings.ToLower` and `strings.ToUpper` map every code point through the Unicode
  case tables of the Go runtime.  The tables are not part of this repository, so they
  are a parameter (`CaseTables`); all that is assumed of them is that they agree with
  the ASCII case mapping on ASCII code points.  Where a statement needs more, namely
  that white space and the comma have no case and that no other character is
  lower-cased to them, it says so through the hypothesis `KeepsSeparators`.
* `http.Header` is a map from keys to value lists; an absent key is the empty list.
* The side effects of `Filter` (response headers, `WriteHeader` calls, `quit` calls,
  `Context.Set` calls) are the fields of the state `Resp`, passed explicitly.
* Logging has no influence on the decision and is left out.
* `regexp.MustCompile` is embedded for the fragment of the syntax that `New` can
  produce (literals, escaped punctuation, `.` and `*`); `none` stands for a pattern
  that does not compile or lies outside that fragment.
-/

namespace SiestaCors

/-- A Go string, as the list of its code points. -/
abbrev GoString := List Char

/-- The Unicode case tables used by `strings.ToLower` / `strings.ToUpper`.  On ASCII
code points they are the ASCII case mapping. -/
structure CaseTables where
  lower : Char → Char
  upper : Char → Char
  lower_ascii : ∀ c : Char, c.toNat < 128 → lower c = c.toLower
  upper_ascii : ∀ c : Char, c.toNat < 128 → upper c = c.toUpper

/-- The ASCII-only case tables: what the Go tables do on ASCII text. -/
def asciiTables : CaseTables where
  lower := Char.toLower
  upper := Char.toUpper
  lower_ascii := fun _ _ => rfl
  upper_ascii := fun _ _ => rfl

/-! ## Library functions used by the source -/

/-- Go `strings.ToLower`. -/
def ToLower (T : CaseTables) (s : GoString) : GoString := s.map T.lower

/-- Go `strings.ToUpper`. -/
def ToUpper (T : CaseTables) (s : GoString) : GoString := s.map T.upper

/-- Go `unicode.IsSpace`: the code points with the White_Space property. -/
def isSpace (c : Char) : Bool :=
  let n := c.toNat
  (9 ≤ n && n ≤ 13) || n == 32 || n == 0x85 || n == 0xA0 || n == 0x1680 ||
  (0x2000 ≤ n && n ≤ 0x200A) || n == 0x2028 || n == 0x2029 || n == 0x202F ||
  n == 0x205F || n == 0x3000

/-- Go `strings.TrimSpace`: leading and trailing white space removed. -/
def TrimSpace (s : GoString) : GoString :=
  ((s.dropWhile isSpace).reverse.dropWhile isSpace).reverse

/-- Go `strings.Split(s, sep)` for a separator of one character (the source only
splits on a comma).  The result always has one more element than `s` has
separators; in particular the empty string splits into one empty string. -/
def Split : GoString → Char → List GoString
  | [], _ => [[]]
  | c :: t, sep =>
    if c = sep then [] :: Split t sep
    else match Split t sep with
      | [] => [[c]]
      | x :: xs => (c :: x) :: xs

/-- The worker of `Replace`: `skip` counts the characters of a matched occurrence of
`old` that are still to be dropped. -/
def replaceGo (old new : GoString) : Nat → GoString → GoString
  | _, [] => []
  | k + 1, _ :: t => replaceGo old new k t
  | 0, c :: t =>
    if old.isPrefixOf (c :: t) then new ++ replaceGo old new (old.length - 1) t
    else c :: replaceGo old new 0 t

/-- Go `strings.Replace(s, old, new, -1)` for a non-empty `old`: every
non-overlapping occurrence of `old`, from the left, is replaced by `new`. -/
def Replace (s old new : GoString) : GoString := replaceGo old new 0 s

/-- The backslash. -/
def backslash : Char := Char.ofNat 92

/-- The characters Go `regexp` treats as special: the string
``\.+*?()|[]{}^$`` of `regexp.QuoteMeta`. -/
def isSpecial (c : Char) : Bool :=
  c.toNat ∈ [92, 46, 43, 42, 63, 40, 41, 124, 91, 93, 123, 125, 94, 36]

/-- Go `regexp.QuoteMeta`: a backslash in front of every special character. -/
def QuoteMeta : GoString → GoString
  | [] => []
  | c :: t => if isSpecial c then backslash :: c :: QuoteMeta t else c :: QuoteMeta t

/-- A one-character matcher of the compiled pattern. -/
inductive Atom where
  /-- A literal character. -/
  | lit (c : Char)
  /-- The regexp `.`: any character but the newline. -/
  | anyNotNL
  deriving DecidableEq, Repr

/-- An element of a compiled pattern: an atom, or an atom under `*`. -/
inductive Piece where
  | one (a : Atom)
  | star (a : Atom)
  deriving DecidableEq, Repr

/-- A compiled regular expression (`*regexp.Regexp`) of the fragment `New` produces:
a concatenation of pieces. -/
abbrev Regexp := List Piece

/-- The parser of `regexp.Compile`, restricted to literals, escaped punctuation, `.`
and a postfix `*`.  `esc` is set right after a backslash; `acc` holds the pieces read
so far, last one first.  A `*` with nothing to repeat, a `*` on a starred piece, a
dangling backslash or an escape of a non-special character gives `none`, and so
does every special character outside the fragment. -/
def compileGo : Bool → List Piece → GoString → Option Regexp
  | true, _, [] => none
  | true, acc, c :: t =>
    if isSpecial c then compileGo false (Piece.one (Atom.lit c) :: acc) t else none
  | false, acc, [] => some acc.reverse
  | false, acc, c :: t =>
    if c = backslash then compileGo true acc t
    else if c = '.' then compileGo false (Piece.one Atom.anyNotNL :: acc) t
    else if c = '*' then
      match acc with
      | Piece.one a :: acc' => compileGo false (Piece.star a :: acc') t
      | _ => none
    else if isSpecial c then none
    else compileGo false (Piece.one (Atom.lit c) :: acc) t

/-- Go `regexp.MustCompile`; `none` stands for the panic. -/
def MustCompile (p : GoString) : Option Regexp := compileGo false [] p

/-- Does the atom accept the character. -/
def Atom.accepts : Atom → Char → Bool
  | Atom.lit c, d => c == d
  | Atom.anyNotNL, d => d != Char.ofNat 10

/-- Zero or more characters accepted by `a`, then the continuation `k`. -/
def matchStar (k : GoString → Bool) (a : Atom) : GoString → Bool
  | [] => k []
  | c :: t => k (c :: t) || (a.accepts c && matchStar k a t)

/-- Does the pattern match a prefix of the string. -/
def matchHere : Regexp → GoString → Bool
  | [], _ => true
  | Piece.one a :: re, s =>
    match s with
    | [] => false
    | c :: t => a.accepts c && matchHere re t
  | Piece.star a :: re, s => matchStar (matchHere re) a s

/-- Go `(*Regexp).MatchString`: the string contains a match of the pattern, at any
position (the search is not anchored). -/
def MatchString (re : Regexp) : GoString → Bool
  | [] => matchHere re []
  | c :: t => matchHere re (c :: t) || MatchString re t

/-- Go `strconv.Itoa`: the decimal rendering of an integer. -/
def Itoa (n : Int) : GoString :=
  if n < 0 then '-' :: Nat.toDigits 10 n.natAbs else Nat.toDigits 10 n.toNat

/-- The table `isTokenTable` of `net/textproto`: the bytes allowed in a header field
name (letters, digits and the punctuation ``!#$%&'*+-.^_`|~``). -/
def validHeaderFieldByte (c : Char) : Bool :=
  let n := c.toNat
  (48 ≤ n && n ≤ 57) || (65 ≤ n && n ≤ 90) || (97 ≤ n && n ≤ 122) ||
  n ∈ [33, 35, 36, 37, 38, 39, 42, 43, 45, 46, 94, 95, 96, 124, 126]

/-- The canonicalisation loop of `textproto.canonicalMIMEHeaderKey`: upper case at the
start and after each dash, lower case elsewhere (ASCII letters only). -/
def canonicalGo : Bool → GoString → GoString
  | _, [] => []
  | up, c :: t =>
    let d := if up then c.toUpper else c.toLower
    d :: canonicalGo (d == '-') t

/-- Go `http.CanonicalHeaderKey`: a key with a character that is no header field byte
is returned unchanged, any other key is canonicalised. -/
def CanonicalHeaderKey (s : GoString) : GoString :=
  if s.all validHeaderFieldByte then canonicalGo true s else s

/-- Go `http.Header`: the values stored under each key. -/
abbrev Header := GoString → List GoString

/-- Go `Header.Get`: the first value under the canonical key, `""` when there is none. -/
def Header.Get (h : Header) (key : GoString) : GoString :=
  match h (CanonicalHeaderKey key) with
  | [] => []
  | v :: _ => v

/-- Go `Header.Add`: the value is appended under the canonical key. -/
def Header.Add (h : Header) (key value : GoString) : Header :=
  fun k => if k = CanonicalHeaderKey key then h k ++ [value] else h k

/-- Go `Header.Set`: the values under the canonical key are replaced by the one value. -/
def Header.Set (h : Header) (key value : GoString) : Header :=
  fun k => if k = CanonicalHeaderKey key then [value] else h k

/-! ## Constants of the source -/

def DefaultAllowOrigins : GoString := "*".toList
def MethodGet : GoString := "GET".toList
def MethodPost : GoString := "POST".toList
def MethodHead : GoString := "HEAD".toList
def MethodOptions : GoString := "OPTIONS".toList
def DefaultAllowMethods : GoString :=
  MethodGet ++ ",".toList ++ MethodPost ++ ",".toList ++ MethodHead ++ ",".toList ++ MethodOptions
def DefaultAllowHeaders : GoString :=
  "Origin,Accept,Content-Type,Accept-Language,Content-Language,Last-Event-ID".toList
def AccessControlAllowOrigin : GoString := "Access-Control-Allow-Origin".toList
def AccessControlExposeHeaders : GoString := "Access-Control-Expose-Headers".toList
def AccessControlControlMaxAge : GoString := "Access-Control-Max-Age".toList
def AccessControlAllowMethods : GoString := "Access-Control-Allow-Methods".toList
def AccessControlAllowHeaders : GoString := "Access-Control-Allow-Headers".toList
def AccessControlAllowCredentials : GoString := "Access-Control-Allow-Credentials".toList
def AccessControlRequestMethod : GoString := "Access-Control-Request-Method".toList
def AccessControlRequestHeaders : GoString := "Access-Control-Request-Headers".toList
def OriginHeader : GoString := "Origin".toList
def VaryHeader : GoString := "Vary".toList
def OriginMatchAll : GoString := "*".toList
def StatusOK : Nat := 200
def StatusForbidden : Nat := 403
def StatusMethodNotAllowed : Nat := 405

/-! ## The policy -/

/-- The struct `Cors` of the source, without its logger. -/
structure Cors where
  allowedOrigins : List Regexp
  allowedMethods : List GoString
  allowedHeaders : List GoString
  maxAge : GoString
  exposedHeaders : GoString
  exposeHeader : Bool
  allowAllOrigins : Bool
  allowCredentials : Bool
  allowHeadersString : GoString
  allowedMethodsString : GoString

/-- The function `defaultNew` of the source; the fields it does not name have Go's
zero values. -/
def defaultNew (T : CaseTables) : Cors where
  allowedOrigins := []
  allowedMethods := Split DefaultAllowMethods ','
  allowedHeaders := Split (ToLower T DefaultAllowHeaders) ','
  maxAge := []
  exposedHeaders := []
  exposeHeader := false
  allowAllOrigins := true
  allowCredentials := false
  allowHeadersString := []
  allowedMethodsString := []

/-- The function `DefaultNew` of the source. -/
def DefaultNew (T : CaseTables) : Cors := defaultNew T

/-- The pattern `New` compiles for one entry of the origin list: the trimmed entry
quoted, then `\*` replaced by `.*` and `\?` by `.`. -/
def originPattern (o : GoString) : GoString :=
  let p := QuoteMeta (TrimSpace o)
  let p := Replace p [backslash, '*'] ['.', '*']
  Replace p [backslash, '?'] ['.']

/-- The loop of `New` over the origin entries: each is compiled and appended. -/
def compileOrigins : List Regexp → List GoString → Option (List Regexp)
  | acc, [] => some acc
  | acc, o :: os =>
    match MustCompile (originPattern o) with
    | none => none
    | some r => compileOrigins (acc ++ [r]) os

/-- The function `New` of the source.  `none` stands for the panic of
`regexp.MustCompile`. -/
def New (T : CaseTables) (allowOrigins allowMethods allowHeaders : GoString) (maxAge : Int)
    (exposedHeaders : GoString) (allowCredentials : Bool) : Option Cors :=
  let cors := defaultNew T
  let step1 : Option Cors :=
    if 0 < allowOrigins.length ∧ allowOrigins ≠ "*".toList then
      match compileOrigins cors.allowedOrigins (Split (ToLower T allowOrigins) ',') with
      | none => none
      | some rs => some { cors with allowedOrigins := rs, allowAllOrigins := false }
    else some cors
  match step1 with
  | none => none
  | some cors =>
    let cors :=
      if 0 < allowMethods.length then
        { cors with allowedMethods := Split (ToUpper T allowMethods) ',',
                    allowedMethodsString := allowMethods }
      else cors
    let cors :=
      if 0 < allowHeaders.length then
        { cors with allowedHeaders := Split (ToLower T allowHeaders) ',',
                    allowHeadersString := allowHeaders }
      else cors
    let cors := { cors with maxAge := Itoa maxAge }
    let cors :=
      if 0 < exposedHeaders.length then
        { cors with exposedHeaders := exposedHeaders, exposeHeader := true }
      else cors
    some { cors with allowCredentials := allowCredentials }

/-- The policies the package can hand out: the results of `DefaultNew` and `New`. -/
inductive IsPolicy (T : CaseTables) : Cors → Prop where
  | ofDefaultNew : IsPolicy T (DefaultNew T)
  | ofNew (allowOrigins allowMethods allowHeaders : GoString) (maxAge : Int)
      (exposedHeaders : GoString) (allowCredentials : Bool) (cors : Cors) :
      New T allowOrigins allowMethods allowHeaders maxAge exposedHeaders allowCredentials
        = some cors → IsPolicy T cors

/-- The method `isOriginAllowed` of the source. -/
def Cors.isOriginAllowed (T : CaseTables) (cors : Cors) (origin : GoString) : Bool :=
  if cors.allowAllOrigins then true
  else
    let origin := ToLower T origin
    cors.allowedOrigins.any fun o => MatchString o origin

/-- The method `isMethodAllowed` of the source. -/
def Cors.isMethodAllowed (cors : Cors) (method : GoString) : Bool :=
  cors.allowedMethods.any fun m => m == method

/-- The method `isHeaderAllowed` of the source. -/
def Cors.isHeaderAllowed (T : CaseTables) (cors : Cors) (header : GoString) : Bool :=
  let header := ToLower T header
  cors.allowedHeaders.any fun h => h == header

/-- The method `areReqHeadersAllowed` of the source. -/
def Cors.areReqHeadersAllowed (T : CaseTables) (cors : Cors) (reqHeaders : GoString) : Bool :=
  if reqHeaders.length = 0 then true
  else
    (Split reqHeaders ',').all fun v =>
      cors.isHeaderAllowed T (CanonicalHeaderKey (TrimSpace v))

/-! ## Requests, effects and the filter -/

/-- What the filter reads of `*http.Request`. -/
structure Request where
  Method : GoString
  Header : Header

/-- The effects of the filter: the response header map (`w.Header()`), the status
codes passed to `w.WriteHeader` in order, the number of calls of `quit`, and the
assignments made through `c.Set`, in order. -/
structure Resp where
  header : Header
  status : List Nat
  quits : Nat
  ctx : List (GoString × Bool)

/-- The statement `w.WriteHeader(code)`. -/
def Resp.WriteHeader (w : Resp) (code : Nat) : Resp := { w with status := w.status ++ [code] }

/-- The call `quit()`. -/
def Resp.quit (w : Resp) : Resp := { w with quits := w.quits + 1 }

/-- The statement `c.Set(key, value)`. -/
def Resp.ctxSet (w : Resp) (key : GoString) (value : Bool) : Resp :=
  { w with ctx := w.ctx ++ [(key, value)] }

/-- The statement `w.Header().Add(key, value)`. -/
def Resp.headerAdd (w : Resp) (key value : GoString) : Resp :=
  { w with header := w.header.Add key value }

/-- The statement `w.Header().Set(key, value)`. -/
def Resp.headerSet (w : Resp) (key value : GoString) : Resp :=
  { w with header := w.header.Set key value }

/-- The method `preFlightRequest` of the source. -/
def Cors.preFlightRequest (T : CaseTables) (cors : Cors) (w : Resp) (r : Request) : Resp :=
  let w := w.headerAdd "Vary".toList AccessControlRequestMethod
  let w := w.headerAdd "Vary".toList AccessControlRequestHeaders
  let reqMethod := ToUpper T (r.Header.Get AccessControlRequestMethod)
  if !cors.isMethodAllowed reqMethod then
    (w.WriteHeader StatusMethodNotAllowed).quit
  else
    let reqHeaders := r.Header.Get AccessControlRequestHeaders
    if !cors.areReqHeadersAllowed T reqHeaders then
      (w.WriteHeader StatusForbidden).quit
    else
      let w := w.headerSet AccessControlAllowMethods cors.allowedMethodsString
      let w := w.headerSet AccessControlAllowHeaders cors.allowHeadersString
      let w := if cors.allowCredentials then
          w.headerSet AccessControlAllowCredentials "true".toList else w
      let w := if cors.maxAge ≠ "0".toList then
          w.headerSet AccessControlControlMaxAge cors.maxAge else w
      (w.WriteHeader StatusOK).quit

/-- The method `Filter` of the source. -/
def Cors.Filter (T : CaseTables) (cors : Cors) (w : Resp) (r : Request) : Resp :=
  let w := w.headerAdd "Vary".toList OriginHeader
  let origin := r.Header.Get OriginHeader
  if origin = [] then
    w.ctxSet "cors".toList false
  else if !cors.isMethodAllowed r.Method then
    (w.WriteHeader StatusMethodNotAllowed).quit
  else if !cors.isOriginAllowed T origin then
    (w.WriteHeader StatusForbidden).quit
  else
    let w := w.ctxSet "cors".toList true
    let w := w.headerSet AccessControlAllowOrigin origin
    if r.Method = MethodOptions then
      let w := w.ctxSet "preflight".toList true
      cors.preFlightRequest T w r
    else
      let w := if cors.exposeHeader then
          w.headerSet AccessControlExposeHeaders cors.exposedHeaders else w
      let w := if cors.allowCredentials then
          w.headerSet AccessControlAllowCredentials "true".toList else w
      w

/-! ## Concrete inputs used by the worked examples -/

/-- A request with the given method and at most the three headers the filter reads;
an empty string leaves the header out. -/
def mkRequest (method origin reqMethod reqHeaders : GoString) : Request where
  Method := method
  Header := fun k =>
    if k = OriginHeader then (if origin = [] then [] else [origin])
    else if k = AccessControlRequestMethod then (if reqMethod = [] then [] else [reqMethod])
    else if k = AccessControlRequestHeaders then (if reqHeaders = [] then [] else [reqHeaders])
    else []

/-- A fresh response: no header, no status written, `quit` not called. -/
def emptyResp : Resp where
  header := fun _ => []
  status := []
  quits := 0
  ctx := []

/-- The state in which `Filter` branches on the method, once method and origin are
accepted. -/
def acceptedResp (w : Resp) (r : Request) : Resp :=
  ((w.headerAdd "Vary".toList OriginHeader).ctxSet "cors".toList true).headerSet
    AccessControlAllowOrigin (r.Header.Get OriginHeader)

/-- The state in which `preFlightRequest` makes its two checks: entered from `Filter`
with the request marked as preflight, the two `Vary` values added. -/
def preflightResp (w : Resp) (r : Request) : Resp :=
  (((acceptedResp w r).ctxSet "preflight".toList true).headerAdd "Vary".toList
    AccessControlRequestMethod).headerAdd "Vary".toList AccessControlRequestHeaders

/-- The request `GET /` with `Origin: http://foo.com`. -/
def requestFoo : Request := mkRequest MethodGet "http://foo.com".toList [] []

/-- The request `OPTIONS /` with `Origin: http://a.com` and
`Access-Control-Request-Method: DELETE`. -/
def requestDelete : Request :=
  mkRequest MethodOptions "http://a.com".toList "DELETE".toList []

/-- The request `OPTIONS /` with `Origin: http://a.com`,
`Access-Control-Request-Method: GET` and `Access-Control-Request-Headers: Accept`. -/
def requestPreflightOk : Request :=
  mkRequest MethodOptions "http://a.com".toList "GET".toList "Accept".toList

/-- The request `OPTIONS /` with `Origin: http://b.com`. -/
def requestOptionsB : Request := mkRequest MethodOptions "http://b.com".toList [] []

/-- A policy that allows every origin and the one request header `X-Ok`:
`New("*", "", "X-Ok", 0, "", false, nil)`. -/
def policyXOk : Cors :=
  (New asciiTables "*".toList [] "X-Ok".toList 0 [] false).getD (DefaultNew asciiTables)

/-- The preflight `OPTIONS /` with `Origin: http://a.com`, requested method `GET` and
`Access-Control-Request-Headers: X-Ok,X-Bad`. -/
def requestXOkXBad : Request :=
  mkRequest MethodOptions "http://a.com".toList "GET".toList "X-Ok,X-Bad".toList

/-- The request `GET /` with `Origin: http://b.com`. -/
def requestGetB : Request := mkRequest MethodGet "http://b.com".toList [] []

/-! ## Closed forms used in the proofs -/

/-- The text of a quoted entry after `\*` has been replaced by `.*`. -/
def starred : GoString → GoString
  | [] => []
  | c :: t =>
    if c = '*' then '.' :: '*' :: starred t
    else if isSpecial c then backslash :: c :: starred t
    else c :: starred t

/-- The text of a quoted entry after both replacements. -/
def globbed : GoString → GoString
  | [] => []
  | c :: t =>
    if c = '*' then '.' :: '*' :: globbed t
    else if c = '?' then '.' :: globbed t
    else if isSpecial c then backslash :: c :: globbed t
    else c :: globbed t

/-- The piece a character of a configured entry compiles to. -/
def globPiece (c : Char) : Piece :=
  if c = '*' then Piece.star Atom.anyNotNL
  else if c = '?' then Piece.one Atom.anyNotNL
  else Piece.one (Atom.lit c)

/-- The compiled pattern of a configured origin entry, in closed form. -/
def globRegexp (o : GoString) : Regexp := (TrimSpace o).map globPiece

/-- The policy of the worked examples with an explicit origin:
`New("http://a.com", "GET,POST", "", 0, "", false, nil)`. -/
def policyA : Cors :=
  (New asciiTables "http://a.com".toList "GET,POST".toList [] 0 [] false).getD
    (DefaultNew asciiTables)

/-- The policy `New("http://a.com", "GET,POST,OPTIONS", "", 0, "", false, nil)`. -/
def policyAOptions : Cors :=
  (New asciiTables "http://a.com".toList "GET,POST,OPTIONS".toList [] 0 [] false).getD
    (DefaultNew asciiTables)

/-- The policy `New` returns, in closed form. -/
def builtPolicy (T : CaseTables) (allowOrigins allowMethods allowHeaders : GoString)
    (maxAge : Int) (exposedHeaders : GoString) (allowCredentials : Bool) : Cors where
  allowedOrigins :=
    if 0 < allowOrigins.length ∧ allowOrigins ≠ "*".toList then
      (Split (ToLower T allowOrigins) ',').map globRegexp
    else []
  allowedMethods :=
    if 0 < allowMethods.length then Split (ToUpper T allowMethods) ','
    else Split DefaultAllowMethods ','
  allowedHeaders :=
    if 0 < allowHeaders.length then Split (ToLower T allowHeaders) ','
    else Split (ToLower T DefaultAllowHeaders) ','
  maxAge := Itoa maxAge
  exposedHeaders := exposedHeaders
  exposeHeader := decide (0 < exposedHeaders.length)
  allowAllOrigins := !decide (0 < allowOrigins.length ∧ allowOrigins ≠ "*".toList)
  allowCredentials := allowCredentials
  allowHeadersString := allowHeaders
  allowedMethodsString := allowMethods

/-- The policy of the first scenario of the specification:
`New("*", "", "", 0, "", false, nil)`. -/
def policyStar : Cors := builtPolicy asciiTables "*".toList [] [] 0 [] false

/-! ## The terminal states of a request evaluation -/

/-- The terminal states of the state machine summary of the specification. -/
inductive Verdict where
  | NOT_CORS
  | METHOD_REJECTED
  | ORIGIN_REJECTED
  | SIMPLE_CORS
  | PREFLIGHT_METHOD_REJECTED
  | PREFLIGHT_HEADERS_REJECTED
  | PREFLIGHT_OK
  deriving DecidableEq, Repr

/-- The condition on policy and request under which a terminal state is the one
reached, read off the guards of `Filter` and `preFlightRequest` in their order. -/
def Verdict.reached (T : CaseTables) (cors : Cors) (r : Request) : Verdict → Prop
  | Verdict.NOT_CORS => r.Header.Get OriginHeader = []
  | Verdict.METHOD_REJECTED =>
    r.Header.Get OriginHeader ≠ [] ∧ r.Method ∉ cors.allowedMethods
  | Verdict.ORIGIN_REJECTED =>
    r.Header.Get OriginHeader ≠ [] ∧ r.Method ∈ cors.allowedMethods ∧
    cors.isOriginAllowed T (r.Header.Get OriginHeader) = false
  | Verdict.SIMPLE_CORS =>
    r.Header.Get OriginHeader ≠ [] ∧ r.Method ∈ cors.allowedMethods ∧
    cors.isOriginAllowed T (r.Header.Get OriginHeader) = true ∧ r.Method ≠ MethodOptions
  | Verdict.PREFLIGHT_METHOD_REJECTED =>
    r.Header.Get OriginHeader ≠ [] ∧ r.Method ∈ cors.allowedMethods ∧
    cors.isOriginAllowed T (r.Header.Get OriginHeader) = true ∧ r.Method = MethodOptions ∧
    ToUpper T (r.Header.Get AccessControlRequestMethod) ∉ cors.allowedMethods
  | Verdict.PREFLIGHT_HEADERS_REJECTED =>
    r.Header.Get OriginHeader ≠ [] ∧ r.Method ∈ cors.allowedMethods ∧
    cors.isOriginAllowed T (r.Header.Get OriginHeader) = true ∧ r.Method = MethodOptions ∧
    ToUpper T (r.Header.Get AccessControlRequestMethod) ∈ cors.allowedMethods ∧
    cors.areReqHeadersAllowed T (r.Header.Get AccessControlRequestHeaders) = false
  | Verdict.PREFLIGHT_OK =>
    r.Header.Get OriginHeader ≠ [] ∧ r.Method ∈ cors.allowedMethods ∧
    cors.isOriginAllowed T (r.Header.Get OriginHeader) = true ∧ r.Method = MethodOptions ∧
    ToUpper T (r.Header.Get AccessControlRequestMethod) ∈ cors.allowedMethods ∧
    cors.areReqHeadersAllowed T (r.Header.Get AccessControlRequestHeaders) = true

/-- The status codes a terminal state writes: none when the pipeline continues. -/
def Verdict.statusWritten : Verdict → List Nat
  | Verdict.NOT_CORS => []
  | Verdict.METHOD_REJECTED => [405]
  | Verdict.ORIGIN_REJECTED => [403]
  | Verdict.SIMPLE_CORS => []
  | Verdict.PREFLIGHT_METHOD_REJECTED => [405]
  | Verdict.PREFLIGHT_HEADERS_REJECTED => [403]
  | Verdict.PREFLIGHT_OK => [200]

/-- The number of `quit` calls of a terminal state: one when it halts. -/
def Verdict.quitCalls : Verdict → Nat
  | Verdict.NOT_CORS => 0
  | Verdict.SIMPLE_CORS => 0
  | _ => 1

/-- The `Context.Set` calls made on the way to a terminal state. -/
def Verdict.marks : Verdict → List (GoString × Bool)
  | Verdict.NOT_CORS => [("cors".toList, false)]
  | Verdict.METHOD_REJECTED => []
  | Verdict.ORIGIN_REJECTED => []
  | Verdict.SIMPLE_CORS => [("cors".toList, true)]
  | _ => [("cors".toList, true), ("preflight".toList, true)]

/-- The values appended to the `Vary` response header on the way to a terminal state. -/
def Verdict.varyAdded : Verdict → List GoString
  | Verdict.NOT_CORS => [OriginHeader]
  | Verdict.METHOD_REJECTED => [OriginHeader]
  | Verdict.ORIGIN_REJECTED => [OriginHeader]
  | Verdict.SIMPLE_CORS => [OriginHeader]
  | _ => [OriginHeader, AccessControlRequestMethod, AccessControlRequestHeaders]

/-- The terminal states of the preflight path. -/
def Verdict.isPreflight : Verdict → Bool
  | Verdict.PREFLIGHT_METHOD_REJECTED => true
  | Verdict.PREFLIGHT_HEADERS_REJECTED => true
  | Verdict.PREFLIGHT_OK => true
  | _ => false

/-- The policy of the last scenario of the specification:
`New("*", "GET,POST", "", 0, "", false, nil)`. -/
def policyStarGetPost : Cors := builtPolicy asciiTables "*".toList "GET,POST".toList [] 0 [] false

/-- The characters that delimit entries and tokens: white space and the comma. -/
def isSeparator (c : Char) : Bool := isSpace c || c == ','

/-- A property of the Unicode lower-case table: white space and the comma have no case,
and no other character is lower-cased to one of them. -/
def KeepsSeparators (T : CaseTables) : Prop :=
  ∀ c : Char, (isSeparator c = true ∨ isSeparator (T.lower c) = true) → T.lower c = c

/-- The preflight `OPTIONS /` with `Origin: http://a.com` and requested method `GET`,
without requested headers. -/
def requestPreflightGet : Request :=
  mkRequest MethodOptions "http://a.com".toList "GET".toList []

/-- The policy `New("*", "", "X-A, X-B", 0, "", false, nil)`: two headers, written with a
blank after the comma. -/
def policyXAXB : Cors := builtPolicy asciiTables "*".toList [] "X-A, X-B".toList 0 [] false

/-- The preflight `OPTIONS /` with `Origin: http://a.com`, requested method `GET` and
`Access-Control-Request-Headers: X-A, X-B`. -/
def requestXAXB : Request :=
  mkRequest MethodOptions "http://a.com".toList "GET".toList "X-A, X-B".toList

/-- The origin configuration `https://*.example.com`. -/
def exampleGlob : GoString := "https://*.example.com".toList

/-- The compiled form of `https://*.example.com`: the literals of `https://`, then
`.*`, then the literals of `.example.com`. -/
def exampleGlobRegexp : Regexp :=
  "https://".toList.map (fun c => Piece.one (Atom.lit c)) ++
    Piece.star Atom.anyNotNL :: ".example.com".toList.map (fun c => Piece.one (Atom.lit c))

/-- The variant of `areReqHeadersAllowed` without `http.CanonicalHeaderKey`: each
comma-separated token is trimmed and handed to `isHeaderAllowed`, which lower-cases
it. -/
def Cors.areReqHeadersAllowedNoCanon (T : CaseTables) (cors : Cors) (reqHeaders : GoString) :
    Bool :=
  if reqHeaders.length = 0 then true
  else
    (Split reqHeaders ',').all fun v => cors.isHeaderAllowed T (TrimSpace v)

/-- The policy `New("*", "", "Accept, X-Custom-Header", 0, "", false, nil)`: a header
in mixed case, written after a comma and a blank. -/
def policySpacedHeader : Cors :=
  builtPolicy asciiTables "*".toList [] "Accept, X-Custom-Header".toList 0 [] false

/-- The preflight `OPTIONS /` with `Origin: http://a.com`, requested method `GET` and
`Access-Control-Request-Headers: X-Custom-Header`. -/
def requestCustomHeader : Request :=
  mkRequest MethodOptions "http://a.com".toList "GET".toList "X-Custom-Header".toList

/-! ## Basic facts about the embedding -/

theorem isMethodAllowed_iff (cors : Cors) (m : GoString) :
    cors.isMethodAllowed m = true ↔ m ∈ cors.allowedMethods := by
  unfold Cors.isMethodAllowed
  rw [List.any_eq_true]
  constructor
  · rintro ⟨x, hx, hxm⟩
    rw [beq_iff_eq] at hxm
    exact hxm ▸ hx
  · intro h
    exact ⟨m, h, beq_self_eq_true m⟩

theorem isMethodAllowed_false_iff (cors : Cors) (m : GoString) :
    cors.isMethodAllowed m = false ↔ m ∉ cors.allowedMethods := by
  rw [← isMethodAllowed_iff]; simp

theorem canonical_Vary : CanonicalHeaderKey "Vary".toList = VaryHeader := by decide

theorem canonical_Origin : CanonicalHeaderKey OriginHeader = OriginHeader := by decide

theorem canonical_AllowOrigin :
    CanonicalHeaderKey AccessControlAllowOrigin = AccessControlAllowOrigin := by decide

theorem canonical_ExposeHeaders :
    CanonicalHeaderKey AccessControlExposeHeaders = AccessControlExposeHeaders := by decide

theorem canonical_MaxAge :
    CanonicalHeaderKey AccessControlControlMaxAge = AccessControlControlMaxAge := by decide

theorem canonical_AllowMethods :
    CanonicalHeaderKey AccessControlAllowMethods = AccessControlAllowMethods := by decide

theorem canonical_AllowHeaders :
    CanonicalHeaderKey AccessControlAllowHeaders = AccessControlAllowHeaders := by decide

theorem canonical_AllowCredentials :
    CanonicalHeaderKey AccessControlAllowCredentials = AccessControlAllowCredentials := by
  decide

theorem headerAdd_header (w : Resp) (key v k : GoString) :
    (w.headerAdd key v).header k
      = if k = CanonicalHeaderKey key then w.header k ++ [v] else w.header k := rfl

theorem headerSet_header (w : Resp) (key v k : GoString) :
    (w.headerSet key v).header k = if k = CanonicalHeaderKey key then [v] else w.header k := rfl

theorem quit_header (w : Resp) : w.quit.header = w.header := rfl

theorem WriteHeader_header (w : Resp) (c : Nat) : (w.WriteHeader c).header = w.header := rfl

theorem ctxSet_header (w : Resp) (key : GoString) (b : Bool) :
    (w.ctxSet key b).header = w.header := rfl

/-- After `w.Header().Add("Vary", v)` the key `Vary` has one more value, `v`. -/
theorem headerAdd_Vary_self (w : Resp) (v : GoString) :
    (w.headerAdd "Vary".toList v).header VaryHeader = w.header VaryHeader ++ [v] := by
  rw [headerAdd_header, canonical_Vary, if_pos rfl]

/-- After `w.Header().Add("Vary", v)` every other key is as before. -/
theorem headerAdd_Vary_other (w : Resp) (v k : GoString) (hk : k ≠ VaryHeader) :
    (w.headerAdd "Vary".toList v).header k = w.header k := by
  rw [headerAdd_header, canonical_Vary, if_neg hk]

/-- The headers of the response after `Filter` on a request without `Origin`. -/
theorem Filter_of_no_origin (T : CaseTables) (cors : Cors) (w : Resp) (r : Request)
    (h : r.Header.Get OriginHeader = []) :
    cors.Filter T w r = (w.headerAdd "Vary".toList OriginHeader).ctxSet "cors".toList false := by
  simp [Cors.Filter, h]

/-- The result of `Filter` when the request method is refused. -/
theorem Filter_of_method_refused (T : CaseTables) (cors : Cors) (w : Resp) (r : Request)
    (ho : r.Header.Get OriginHeader ≠ []) (hm : r.Method ∉ cors.allowedMethods) :
    cors.Filter T w r
      = ((w.headerAdd "Vary".toList OriginHeader).WriteHeader StatusMethodNotAllowed).quit := by
  have hm2 := (isMethodAllowed_false_iff cors r.Method).2 hm
  simp [Cors.Filter, ho, hm2]

/-- The result of `Filter` when the method is accepted and the origin refused. -/
theorem Filter_of_origin_refused (T : CaseTables) (cors : Cors) (w : Resp) (r : Request)
    (ho : r.Header.Get OriginHeader ≠ []) (hm : r.Method ∈ cors.allowedMethods)
    (ha : cors.isOriginAllowed T (r.Header.Get OriginHeader) = false) :
    cors.Filter T w r
      = ((w.headerAdd "Vary".toList OriginHeader).WriteHeader StatusForbidden).quit := by
  have hm2 := (isMethodAllowed_iff cors r.Method).2 hm
  simp [Cors.Filter, ho, hm2, ha]

/-- The result of `Filter` on an accepted request that is no preflight. -/
theorem Filter_of_simple (T : CaseTables) (cors : Cors) (w : Resp) (r : Request)
    (ho : r.Header.Get OriginHeader ≠ []) (hm : r.Method ∈ cors.allowedMethods)
    (hopt : r.Method ≠ MethodOptions)
    (ha : cors.isOriginAllowed T (r.Header.Get OriginHeader) = true) :
    cors.Filter T w r =
      (fun w1 : Resp => if cors.allowCredentials then
          w1.headerSet AccessControlAllowCredentials "true".toList else w1)
        (if cors.exposeHeader then
          (acceptedResp w r).headerSet AccessControlExposeHeaders cors.exposedHeaders
         else acceptedResp w r) := by
  have hm2 := (isMethodAllowed_iff cors r.Method).2 hm
  simp [Cors.Filter, ho, hm2, ha, hopt, acceptedResp]

/-- The result of `Filter` on an accepted `OPTIONS` request: the preflight handler runs. -/
theorem Filter_of_preflight (T : CaseTables) (cors : Cors) (w : Resp) (r : Request)
    (ho : r.Header.Get OriginHeader ≠ []) (hopt : r.Method = MethodOptions)
    (hm : MethodOptions ∈ cors.allowedMethods)
    (ha : cors.isOriginAllowed T (r.Header.Get OriginHeader) = true) :
    cors.Filter T w r
      = cors.preFlightRequest T ((acceptedResp w r).ctxSet "preflight".toList true) r := by
  have hm2 := (isMethodAllowed_iff cors MethodOptions).2 hm
  simp [Cors.Filter, ho, hm2, ha, hopt, acceptedResp]

/-! ## Requests that are not CORS, and the two simple-path rejections -/

/-- C1: for every policy and every request whose `Origin` header is absent or empty,
`Filter` does not call `quit` and writes no status code, appends exactly the one value
`Origin` to the `Vary` response header, and leaves every other response header, in
particular every `Access-Control-*` header, as it was. -/
theorem C1_no_origin_continues (T : CaseTables) (cors : Cors) (w : Resp) (r : Request)
    (h : r.Header.Get OriginHeader = []) :
    (cors.Filter T w r).quits = w.quits ∧
    (cors.Filter T w r).status = w.status ∧
    (cors.Filter T w r).header VaryHeader = w.header VaryHeader ++ [OriginHeader] ∧
    ∀ k, k ≠ VaryHeader → (cors.Filter T w r).header k = w.header k := by
  rw [Filter_of_no_origin T cors w r h]
  refine ⟨rfl, rfl, ?_, ?_⟩
  · rw [ctxSet_header, headerAdd_Vary_self]
  · intro k hk
    rw [ctxSet_header, headerAdd_Vary_other _ _ _ hk]

/-- C1, worked example: a `GET` without `Origin` under the default policy passes
through with no status written and `Vary: Origin` as the only header. -/
theorem C1_no_origin_continues_witness :
    (mkRequest MethodGet [] [] []).Header.Get OriginHeader = [] ∧
    ((DefaultNew asciiTables).Filter asciiTables emptyResp (mkRequest MethodGet [] [] [])).quits
      = 0 ∧
    ((DefaultNew asciiTables).Filter asciiTables emptyResp (mkRequest MethodGet [] [] [])).status
      = [] ∧
    ((DefaultNew asciiTables).Filter asciiTables emptyResp
      (mkRequest MethodGet [] [] [])).header VaryHeader = [OriginHeader] ∧
    ((DefaultNew asciiTables).Filter asciiTables emptyResp
      (mkRequest MethodGet [] [] [])).header AccessControlAllowOrigin = [] :=
  have h := C1_no_origin_continues asciiTables (DefaultNew asciiTables) emptyResp
    (mkRequest MethodGet [] [] []) (by decide)
  ⟨by decide, h.1, h.2.1, h.2.2.1, h.2.2.2 AccessControlAllowOrigin (by decide)⟩

/-- C4: for every policy and every request with a non-empty `Origin` whose method is
not an element of `allowedMethods` (exact, case-sensitive comparison), `Filter` writes
status 405 and calls `quit`, whether or not the origin is allowed, and leaves every
response header other than `Vary` as it was. -/
theorem C4_method_not_allowed_405 (T : CaseTables) (cors : Cors) (w : Resp) (r : Request)
    (ho : r.Header.Get OriginHeader ≠ []) (hm : r.Method ∉ cors.allowedMethods) :
    (cors.Filter T w r).status = w.status ++ [405] ∧
    (cors.Filter T w r).quits = w.quits + 1 ∧
    ∀ k, k ≠ VaryHeader → (cors.Filter T w r).header k = w.header k := by
  rw [Filter_of_method_refused T cors w r ho hm]
  refine ⟨rfl, rfl, ?_⟩
  intro k hk
  rw [quit_header, WriteHeader_header, headerAdd_Vary_other _ _ _ hk]

/-- C4, worked example: a lower-case `get` is not the configured `GET` and is refused
with 405, under a policy that allows every origin. -/
theorem C4_method_not_allowed_405_witness :
    (mkRequest "get".toList "http://a.com".toList [] []).Header.Get OriginHeader ≠ [] ∧
    "get".toList ∉ (DefaultNew asciiTables).allowedMethods ∧
    ((DefaultNew asciiTables).Filter asciiTables emptyResp
      (mkRequest "get".toList "http://a.com".toList [] [])).status = [405] ∧
    ((DefaultNew asciiTables).Filter asciiTables emptyResp
      (mkRequest "get".toList "http://a.com".toList [] [])).header AccessControlAllowOrigin
        = [] :=
  have h := C4_method_not_allowed_405 asciiTables (DefaultNew asciiTables) emptyResp
    (mkRequest "get".toList "http://a.com".toList [] []) (by decide) (by decide)
  ⟨by decide, by decide, h.1, h.2.2 AccessControlAllowOrigin (by decide)⟩

/-- C5: for every policy and every request with a non-empty `Origin` whose method is
in `allowedMethods` and whose origin `isOriginAllowed` refuses, `Filter` writes status
403 and calls `quit`, and leaves every response header other than `Vary` as it was: no
`Access-Control-*` header, in particular no `Access-Control-Allow-Origin`, is set. -/
theorem C5_origin_not_allowed_403 (T : CaseTables) (cors : Cors) (w : Resp) (r : Request)
    (ho : r.Header.Get OriginHeader ≠ []) (hm : r.Method ∈ cors.allowedMethods)
    (ha : cors.isOriginAllowed T (r.Header.Get OriginHeader) = false) :
    (cors.Filter T w r).status = w.status ++ [403] ∧
    (cors.Filter T w r).quits = w.quits + 1 ∧
    (cors.Filter T w r).header AccessControlAllowOrigin = w.header AccessControlAllowOrigin ∧
    ∀ k, k ≠ VaryHeader → (cors.Filter T w r).header k = w.header k := by
  rw [Filter_of_origin_refused T cors w r ho hm ha]
  have key : ∀ k, k ≠ VaryHeader →
      (((w.headerAdd "Vary".toList OriginHeader).WriteHeader StatusForbidden).quit).header k
        = w.header k := by
    intro k hk
    rw [quit_header, WriteHeader_header, headerAdd_Vary_other _ _ _ hk]
  exact ⟨rfl, rfl, key _ (by decide), key⟩

/-- C5, worked example: the policy with the single origin `http://a.com` refuses
`GET /` with `Origin: http://b.com` with 403 and sets no `Access-Control-Allow-Origin`. -/
theorem C5_origin_not_allowed_403_witness :
    requestGetB.Header.Get OriginHeader ≠ [] ∧
    requestGetB.Method ∈ policyA.allowedMethods ∧
    policyA.isOriginAllowed asciiTables (requestGetB.Header.Get OriginHeader) = false ∧
    (policyA.Filter asciiTables emptyResp requestGetB).status = [403] ∧
    (policyA.Filter asciiTables emptyResp requestGetB).quits = 1 ∧
    (policyA.Filter asciiTables emptyResp requestGetB).header AccessControlAllowOrigin = [] :=
  have h := C5_origin_not_allowed_403 asciiTables policyA emptyResp requestGetB
    (by decide) (by decide) (by decide)
  ⟨by decide, by decide, by decide, h.1, h.2.1, h.2.2.1⟩

/-! ## The origin patterns compiled by `New` -/

theorem isSpecial_backslash : isSpecial backslash = true := by decide

theorem ne_backslash_of_not_special {c : Char} (h : isSpecial c = false) : c ≠ backslash := by
  rintro rfl
  rw [isSpecial_backslash] at h
  exact Bool.noConfusion h

theorem QuoteMeta_head_ne_star (e : GoString) : ¬ ['*'] <+: QuoteMeta e := by
  cases e with
  | nil => simp [QuoteMeta]
  | cons c t =>
    by_cases hs : isSpecial c = true
    · simp [QuoteMeta, hs, backslash]
    · have hc : c ≠ '*' := by
        rintro rfl
        exact hs (by decide)
      simp [QuoteMeta, hs, Ne.symm hc]

/-- Replacing `\*` by `.*` in a quoted entry turns exactly the stars of the entry into
`.*`. -/
theorem Replace_star_QuoteMeta (e : GoString) :
    Replace (QuoteMeta e) [backslash, '*'] ['.', '*'] = starred e := by
  unfold Replace
  induction e with
  | nil => rfl
  | cons c t ih =>
    by_cases hstar : c = '*'
    · subst hstar
      have hs : isSpecial '*' = true := by decide
      simp [QuoteMeta, hs, replaceGo, starred, ih]
    · by_cases hs : isSpecial c = true
      · have h1 := QuoteMeta_head_ne_star t
        simp [QuoteMeta, hs, replaceGo, starred, hstar, Ne.symm hstar, ih, h1]
      · have hb : c ≠ backslash := ne_backslash_of_not_special (by simpa using hs)
        simp [QuoteMeta, hs, replaceGo, starred, hstar, Ne.symm hb, ih]

theorem starred_head_ne_question (e : GoString) : ¬ ['?'] <+: starred e := by
  cases e with
  | nil => simp [starred]
  | cons c t =>
    by_cases hstar : c = '*'
    · simp [starred, hstar]
    · by_cases hs : isSpecial c = true
      · simp [starred, hstar, hs, backslash]
      · have hc : c ≠ '?' := by
          rintro rfl
          exact hs (by decide)
        simp [starred, hstar, hs, Ne.symm hc]

/-- Replacing `\?` by `.` after the first replacement turns exactly the question marks
of the entry into `.`. -/
theorem Replace_question_starred (e : GoString) :
    Replace (starred e) [backslash, '?'] ['.'] = globbed e := by
  unfold Replace
  induction e with
  | nil => rfl
  | cons c t ih =>
    by_cases hstar : c = '*'
    · subst hstar
      have hb1 : ¬ backslash = '.' := by decide
      have hb2 : ¬ backslash = '*' := by decide
      simp [replaceGo, starred, globbed, ih, hb1, hb2]
    · by_cases hq : c = '?'
      · subst hq
        have hs : isSpecial '?' = true := by decide
        simp [replaceGo, starred, globbed, ih, hs]
      · by_cases hs : isSpecial c = true
        · have h1 := starred_head_ne_question t
          simp [replaceGo, starred, globbed, hstar, hq, Ne.symm hq, hs, ih, h1]
        · have hb : c ≠ backslash := ne_backslash_of_not_special (by simpa using hs)
          simp [replaceGo, starred, globbed, hstar, hq, hs, Ne.symm hb, ih]

/-- The pattern text `New` builds for an entry, in closed form. -/
theorem originPattern_eq (o : GoString) : originPattern o = globbed (TrimSpace o) := by
  unfold originPattern
  simp only []
  rw [Replace_star_QuoteMeta, Replace_question_starred]

/-- The parser accepts the text of every entry and yields one piece per character. -/
theorem compileGo_globbed (e : GoString) (acc : List Piece) :
    compileGo false acc (globbed e) = some (acc.reverse ++ e.map globPiece) := by
  induction e generalizing acc with
  | nil => simp [globbed, compileGo]
  | cons c t ih =>
    by_cases hstar : c = '*'
    · subst hstar
      have hb1 : ¬ '.' = backslash := by decide
      have hb2 : ¬ '*' = backslash := by decide
      simp [globbed, compileGo, globPiece, ih, hb1, hb2]
    · by_cases hq : c = '?'
      · subst hq
        have hb1 : ¬ '.' = backslash := by decide
        simp [globbed, compileGo, globPiece, ih, hb1]
      · by_cases hs : isSpecial c = true
        · simp [globbed, compileGo, globPiece, hstar, hq, hs, ih]
        · have hb : c ≠ backslash := ne_backslash_of_not_special (by simpa using hs)
          have hd : c ≠ '.' := by
            rintro rfl
            exact hs (by decide)
          simp [globbed, compileGo, globPiece, hstar, hq, hs, hb, hd, ih]

/-- `regexp.MustCompile` never panics on a pattern built by `New`: the pattern of an
entry compiles to the closed form `globRegexp`. -/
theorem MustCompile_originPattern (o : GoString) :
    MustCompile (originPattern o) = some (globRegexp o) := by
  rw [originPattern_eq, MustCompile, compileGo_globbed]
  rfl

/-- The loop of `New` over the entries succeeds, with one pattern per entry. -/
theorem compileOrigins_eq (acc : List Regexp) (os : List GoString) :
    compileOrigins acc os = some (acc ++ os.map globRegexp) := by
  induction os generalizing acc with
  | nil => simp [compileOrigins]
  | cons o os ih => simp [compileOrigins, MustCompile_originPattern, ih]

/-- `New` always returns a policy (no origin entry makes `regexp.MustCompile` panic),
and the policy is `builtPolicy`. -/
theorem New_eq_some (T : CaseTables) (ao am ah : GoString) (n : Int) (eh : GoString)
    (cred : Bool) : New T ao am ah n eh cred = some (builtPolicy T ao am ah n eh cred) := by
  unfold New builtPolicy
  simp only [compileOrigins_eq, defaultNew, List.nil_append]
  split_ifs <;> simp_all <;> (cases ao <;> simp_all)

/-- In every policy handed out by the package the expose flag is set exactly when
the exposed-headers string is non-empty. -/
theorem IsPolicy.exposeHeader_iff {T : CaseTables} {cors : Cors} (h : IsPolicy T cors) :
    cors.exposeHeader = true ↔ cors.exposedHeaders ≠ [] := by
  cases h with
  | ofDefaultNew => simp [DefaultNew, defaultNew]
  | ofNew ao am ah n eh cred cors hnew =>
    rw [New_eq_some] at hnew
    cases hnew
    simp [builtPolicy, List.length_pos]

/-! ## Accepted requests: the simple path -/

theorem canonical_Vary_lit : CanonicalHeaderKey ['V', 'a', 'r', 'y'] = VaryHeader := by decide

/-- The response headers once origin and method are accepted. -/
theorem acceptedResp_header (w : Resp) (r : Request) (k : GoString) :
    (acceptedResp w r).header k =
      if k = AccessControlAllowOrigin then [r.Header.Get OriginHeader]
      else if k = VaryHeader then w.header k ++ [OriginHeader] else w.header k := by
  simp [acceptedResp, headerSet_header, headerAdd_header, ctxSet_header,
    canonical_AllowOrigin, canonical_Vary_lit]

/-- The response headers after `Filter` on an accepted request that is no preflight. -/
theorem simple_header (cors : Cors) (w : Resp) (r : Request) (k : GoString) :
    ((fun w1 : Resp => if cors.allowCredentials then
          w1.headerSet AccessControlAllowCredentials "true".toList else w1)
        (if cors.exposeHeader then
          (acceptedResp w r).headerSet AccessControlExposeHeaders cors.exposedHeaders
         else acceptedResp w r)).header k =
      if cors.allowCredentials = true ∧ k = AccessControlAllowCredentials then ["true".toList]
      else if cors.exposeHeader = true ∧ k = AccessControlExposeHeaders then
        [cors.exposedHeaders]
      else (acceptedResp w r).header k := by
  cases cors.allowCredentials <;> cases cors.exposeHeader <;>
    simp [headerSet_header, canonical_AllowCredentials, canonical_ExposeHeaders]

/-- C6: for every policy handed out by `New` or `DefaultNew` and every request with a
non-empty `Origin`, a method in `allowedMethods` other than `OPTIONS`, and an allowed
origin, `Filter` writes no status and does not call `quit`; it sets
`Access-Control-Allow-Origin` to the `Origin` value exactly as received; it sets
`Access-Control-Expose-Headers` to the configured value when that value is non-empty and
leaves the header alone when it is empty; it sets `Access-Control-Allow-Credentials` to
`true` when `allowCredentials` is set and leaves it alone otherwise; and it leaves
`Access-Control-Allow-Methods`, `Access-Control-Allow-Headers` and
`Access-Control-Max-Age` alone. -/
theorem C6_simple_cors_headers (T : CaseTables) (cors : Cors) (hp : IsPolicy T cors)
    (w : Resp) (r : Request)
    (ho : r.Header.Get OriginHeader ≠ []) (hm : r.Method ∈ cors.allowedMethods)
    (hopt : r.Method ≠ MethodOptions)
    (ha : cors.isOriginAllowed T (r.Header.Get OriginHeader) = true) :
    (cors.Filter T w r).status = w.status ∧
    (cors.Filter T w r).quits = w.quits ∧
    (cors.Filter T w r).header AccessControlAllowOrigin = [r.Header.Get OriginHeader] ∧
    (cors.exposedHeaders ≠ [] →
      (cors.Filter T w r).header AccessControlExposeHeaders = [cors.exposedHeaders]) ∧
    (cors.exposedHeaders = [] →
      (cors.Filter T w r).header AccessControlExposeHeaders
        = w.header AccessControlExposeHeaders) ∧
    (cors.allowCredentials = true →
      (cors.Filter T w r).header AccessControlAllowCredentials = ["true".toList]) ∧
    (cors.allowCredentials = false →
      (cors.Filter T w r).header AccessControlAllowCredentials
        = w.header AccessControlAllowCredentials) ∧
    (cors.Filter T w r).header AccessControlAllowMethods
      = w.header AccessControlAllowMethods ∧
    (cors.Filter T w r).header AccessControlAllowHeaders
      = w.header AccessControlAllowHeaders ∧
    (cors.Filter T w r).header AccessControlControlMaxAge
      = w.header AccessControlControlMaxAge := by
  have hexp := hp.exposeHeader_iff
  have hF := Filter_of_simple T cors w r ho hm hopt ha
  have hst : (cors.Filter T w r).status = w.status := by
    rw [hF]; cases cors.allowCredentials <;> cases cors.exposeHeader <;> rfl
  have hq : (cors.Filter T w r).quits = w.quits := by
    rw [hF]; cases cors.allowCredentials <;> cases cors.exposeHeader <;> rfl
  have hh : ∀ k, (cors.Filter T w r).header k =
      if cors.allowCredentials = true ∧ k = AccessControlAllowCredentials then ["true".toList]
      else if cors.exposeHeader = true ∧ k = AccessControlExposeHeaders then
        [cors.exposedHeaders]
      else (acceptedResp w r).header k := by
    intro k; rw [hF]; exact simple_header cors w r k
  have n1 : AccessControlAllowOrigin ≠ AccessControlAllowCredentials := by decide
  have n2 : AccessControlAllowOrigin ≠ AccessControlExposeHeaders := by decide
  have n3 : AccessControlExposeHeaders ≠ AccessControlAllowCredentials := by decide
  have n4 : AccessControlExposeHeaders ≠ AccessControlAllowOrigin := by decide
  have n5 : AccessControlExposeHeaders ≠ VaryHeader := by decide
  have n6 : AccessControlAllowCredentials ≠ AccessControlExposeHeaders := by decide
  have n7 : AccessControlAllowCredentials ≠ AccessControlAllowOrigin := by decide
  have n8 : AccessControlAllowCredentials ≠ VaryHeader := by decide
  refine ⟨hst, hq, ?_, ?_, ?_, ?_, ?_, ?_, ?_, ?_⟩
  · rw [hh, acceptedResp_header]; simp [n1, n2]
  · intro he
    have := hexp.2 he
    rw [hh, acceptedResp_header]; simp [n3, this]
  · intro he
    have : cors.exposeHeader = false := by
      cases hb : cors.exposeHeader
      · rfl
      · exact absurd he (hexp.1 hb)
    rw [hh, acceptedResp_header]; simp [n3, n4, n5, this]
  · intro hc
    rw [hh]; simp [hc]
  · intro hc
    rw [hh, acceptedResp_header]; simp [hc, n6, n7, n8]
  · rw [hh, acceptedResp_header]
    simp [AccessControlAllowMethods, AccessControlAllowCredentials, AccessControlExposeHeaders,
      AccessControlAllowOrigin, VaryHeader]
  · rw [hh, acceptedResp_header]
    simp [AccessControlAllowHeaders, AccessControlAllowCredentials, AccessControlExposeHeaders,
      AccessControlAllowOrigin, VaryHeader]
  · rw [hh, acceptedResp_header]
    simp [AccessControlControlMaxAge, AccessControlAllowCredentials,
      AccessControlExposeHeaders, AccessControlAllowOrigin, VaryHeader]

/-- C6, worked example: under `New("*", "", "", 0, "", false, nil)` the request `GET /`
with `Origin: http://foo.com` passes through with no status written and
`Access-Control-Allow-Origin: http://foo.com`. -/
theorem C6_simple_cors_headers_witness :
    IsPolicy asciiTables policyStar ∧
    requestFoo.Header.Get OriginHeader ≠ [] ∧
    requestFoo.Method ∈ policyStar.allowedMethods ∧
    requestFoo.Method ≠ MethodOptions ∧
    policyStar.isOriginAllowed asciiTables (requestFoo.Header.Get OriginHeader) = true ∧
    (policyStar.Filter asciiTables emptyResp requestFoo).status = [] ∧
    (policyStar.Filter asciiTables emptyResp requestFoo).quits = 0 ∧
    (policyStar.Filter asciiTables emptyResp requestFoo).header AccessControlAllowOrigin
      = ["http://foo.com".toList] :=
  have hp : IsPolicy asciiTables policyStar :=
    IsPolicy.ofNew _ _ _ _ _ _ _ (New_eq_some asciiTables "*".toList [] [] 0 [] false)
  have h := C6_simple_cors_headers asciiTables policyStar hp emptyResp requestFoo
    (by decide) (by decide) (by decide) (by decide)
  ⟨hp, by decide, by decide, by decide, by decide, h.1, h.2.1, h.2.2.1⟩

/-! ## Accepted requests: the preflight path -/

/-- The response headers when `preFlightRequest` makes its checks. -/
theorem preflightResp_header (w : Resp) (r : Request) (k : GoString) :
    (preflightResp w r).header k =
      if k = VaryHeader then
        w.header k ++ [OriginHeader, AccessControlRequestMethod, AccessControlRequestHeaders]
      else if k = AccessControlAllowOrigin then [r.Header.Get OriginHeader]
      else w.header k := by
  have n1 : VaryHeader ≠ AccessControlAllowOrigin := by decide
  by_cases hk : k = VaryHeader
  · subst hk
    simp [preflightResp, headerAdd_header, ctxSet_header, acceptedResp_header,
      canonical_Vary_lit, n1]
  · simp [preflightResp, headerAdd_header, ctxSet_header, acceptedResp_header,
      canonical_Vary_lit, hk]

/-- The preflight whose requested method is refused ends with 405. -/
theorem Filter_preflight_method_refused (T : CaseTables) (cors : Cors) (w : Resp)
    (r : Request) (ho : r.Header.Get OriginHeader ≠ []) (hopt : r.Method = MethodOptions)
    (hm : MethodOptions ∈ cors.allowedMethods)
    (ha : cors.isOriginAllowed T (r.Header.Get OriginHeader) = true)
    (hrm : ToUpper T (r.Header.Get AccessControlRequestMethod) ∉ cors.allowedMethods) :
    cors.Filter T w r = ((preflightResp w r).WriteHeader StatusMethodNotAllowed).quit := by
  rw [Filter_of_preflight T cors w r ho hopt hm ha]
  have h2 := (isMethodAllowed_false_iff cors _).2 hrm
  simp only [Cors.preFlightRequest, h2, preflightResp]
  rfl

/-- The preflight whose requested headers are refused ends with 403. -/
theorem Filter_preflight_headers_refused (T : CaseTables) (cors : Cors) (w : Resp)
    (r : Request) (ho : r.Header.Get OriginHeader ≠ []) (hopt : r.Method = MethodOptions)
    (hm : MethodOptions ∈ cors.allowedMethods)
    (ha : cors.isOriginAllowed T (r.Header.Get OriginHeader) = true)
    (hrm : ToUpper T (r.Header.Get AccessControlRequestMethod) ∈ cors.allowedMethods)
    (hrh : cors.areReqHeadersAllowed T (r.Header.Get AccessControlRequestHeaders) = false) :
    cors.Filter T w r = ((preflightResp w r).WriteHeader StatusForbidden).quit := by
  rw [Filter_of_preflight T cors w r ho hopt hm ha]
  have h2 := (isMethodAllowed_iff cors _).2 hrm
  simp only [Cors.preFlightRequest, h2, hrh, preflightResp]
  rfl

/-- The preflight that passes both checks ends with 200, the allow headers set. -/
theorem Filter_preflight_ok (T : CaseTables) (cors : Cors) (w : Resp)
    (r : Request) (ho : r.Header.Get OriginHeader ≠ []) (hopt : r.Method = MethodOptions)
    (hm : MethodOptions ∈ cors.allowedMethods)
    (ha : cors.isOriginAllowed T (r.Header.Get OriginHeader) = true)
    (hrm : ToUpper T (r.Header.Get AccessControlRequestMethod) ∈ cors.allowedMethods)
    (hrh : cors.areReqHeadersAllowed T (r.Header.Get AccessControlRequestHeaders) = true) :
    cors.Filter T w r =
      (((fun w3 : Resp => if cors.maxAge ≠ "0".toList then
            w3.headerSet AccessControlControlMaxAge cors.maxAge else w3)
        ((fun w2 : Resp => if cors.allowCredentials then
            w2.headerSet AccessControlAllowCredentials "true".toList else w2)
          (((preflightResp w r).headerSet AccessControlAllowMethods
            cors.allowedMethodsString).headerSet AccessControlAllowHeaders
            cors.allowHeadersString))).WriteHeader StatusOK).quit := by
  rw [Filter_of_preflight T cors w r ho hopt hm ha]
  have h2 := (isMethodAllowed_iff cors _).2 hrm
  simp only [Cors.preFlightRequest, h2, hrh, preflightResp]
  rfl

/-- The response of a successful preflight: status, `quit` count and headers. -/
theorem preflight_ok_resp (cors : Cors) (p : Resp) :
    ((((fun w3 : Resp => if cors.maxAge ≠ "0".toList then
            w3.headerSet AccessControlControlMaxAge cors.maxAge else w3)
        ((fun w2 : Resp => if cors.allowCredentials then
            w2.headerSet AccessControlAllowCredentials "true".toList else w2)
          ((p.headerSet AccessControlAllowMethods
            cors.allowedMethodsString).headerSet AccessControlAllowHeaders
            cors.allowHeadersString))).WriteHeader StatusOK).quit).status = p.status ++ [200] ∧
    ((((fun w3 : Resp => if cors.maxAge ≠ "0".toList then
            w3.headerSet AccessControlControlMaxAge cors.maxAge else w3)
        ((fun w2 : Resp => if cors.allowCredentials then
            w2.headerSet AccessControlAllowCredentials "true".toList else w2)
          ((p.headerSet AccessControlAllowMethods
            cors.allowedMethodsString).headerSet AccessControlAllowHeaders
            cors.allowHeadersString))).WriteHeader StatusOK).quit).quits = p.quits + 1 ∧
    ∀ k, ((((fun w3 : Resp => if cors.maxAge ≠ "0".toList then
            w3.headerSet AccessControlControlMaxAge cors.maxAge else w3)
        ((fun w2 : Resp => if cors.allowCredentials then
            w2.headerSet AccessControlAllowCredentials "true".toList else w2)
          ((p.headerSet AccessControlAllowMethods
            cors.allowedMethodsString).headerSet AccessControlAllowHeaders
            cors.allowHeadersString))).WriteHeader StatusOK).quit).header k =
      if cors.maxAge ≠ "0".toList ∧ k = AccessControlControlMaxAge then [cors.maxAge]
      else if cors.allowCredentials = true ∧ k = AccessControlAllowCredentials then
        ["true".toList]
      else if k = AccessControlAllowHeaders then [cors.allowHeadersString]
      else if k = AccessControlAllowMethods then [cors.allowedMethodsString]
      else p.header k := by
  by_cases h0 : cors.maxAge = ['0'] <;> cases hc : cors.allowCredentials <;>
    refine ⟨?_, ?_, ?_⟩ <;>
    simp [h0, Resp.quit, Resp.WriteHeader, Resp.headerSet, Header.Set, StatusOK,
      canonical_MaxAge, canonical_AllowCredentials, canonical_AllowHeaders,
      canonical_AllowMethods]

/-- C7, as stated, fails: under the default policy the preflight `OPTIONS /` with
`Origin: http://a.com` and `Access-Control-Request-Method: DELETE` enters the preflight
path and is refused with 405, yet the response carries
`Access-Control-Allow-Origin: http://a.com`, set before the preflight handler ran. -/
theorem C7_counterexample :
    requestDelete.Method = MethodOptions ∧
    MethodOptions ∈ (DefaultNew asciiTables).allowedMethods ∧
    requestDelete.Header.Get OriginHeader ≠ [] ∧
    (DefaultNew asciiTables).isOriginAllowed asciiTables
      (requestDelete.Header.Get OriginHeader) = true ∧
    ToUpper asciiTables (requestDelete.Header.Get AccessControlRequestMethod)
      ∉ (DefaultNew asciiTables).allowedMethods ∧
    ((DefaultNew asciiTables).Filter asciiTables emptyResp requestDelete).status = [405] ∧
    emptyResp.header AccessControlAllowOrigin = [] ∧
    ((DefaultNew asciiTables).Filter asciiTables emptyResp requestDelete).header
      AccessControlAllowOrigin = ["http://a.com".toList] := by
  decide

/-- C7, amended: for every policy and every request that enters the preflight path
(method `OPTIONS` in `allowedMethods`, non-empty allowed `Origin`) whose upper-cased
`Access-Control-Request-Method` value is not in `allowedMethods`, `Filter` writes
status 405 and calls `quit`, and leaves `Access-Control-Allow-Methods`,
`Access-Control-Allow-Headers` and `Access-Control-Allow-Credentials` as they were;
`Access-Control-Allow-Origin` has been set to the request's `Origin` before the
preflight checks. -/
theorem C7_preflight_method_refused_405 (T : CaseTables) (cors : Cors) (w : Resp)
    (r : Request) (hopt : r.Method = MethodOptions)
    (hm : MethodOptions ∈ cors.allowedMethods)
    (ho : r.Header.Get OriginHeader ≠ [])
    (ha : cors.isOriginAllowed T (r.Header.Get OriginHeader) = true)
    (hrm : ToUpper T (r.Header.Get AccessControlRequestMethod) ∉ cors.allowedMethods) :
    (cors.Filter T w r).status = w.status ++ [405] ∧
    (cors.Filter T w r).quits = w.quits + 1 ∧
    (cors.Filter T w r).header AccessControlAllowMethods
      = w.header AccessControlAllowMethods ∧
    (cors.Filter T w r).header AccessControlAllowHeaders
      = w.header AccessControlAllowHeaders ∧
    (cors.Filter T w r).header AccessControlAllowCredentials
      = w.header AccessControlAllowCredentials ∧
    (cors.Filter T w r).header AccessControlAllowOrigin = [r.Header.Get OriginHeader] := by
  rw [Filter_preflight_method_refused T cors w r ho hopt hm ha hrm]
  refine ⟨rfl, rfl, ?_, ?_, ?_, ?_⟩ <;>
    rw [quit_header, WriteHeader_header, preflightResp_header]
  · rw [if_neg (by decide), if_neg (by decide)]
  · rw [if_neg (by decide), if_neg (by decide)]
  · rw [if_neg (by decide), if_neg (by decide)]
  · rw [if_neg (by decide), if_pos rfl]

/-- C7 amended, worked example: the `DELETE` preflight under the default policy. -/
theorem C7_preflight_method_refused_405_witness :
    ((DefaultNew asciiTables).Filter asciiTables emptyResp requestDelete).status = [405] ∧
    ((DefaultNew asciiTables).Filter asciiTables emptyResp requestDelete).header
      AccessControlAllowMethods = [] :=
  have h := C7_preflight_method_refused_405 asciiTables (DefaultNew asciiTables) emptyResp
    requestDelete (by decide) (by decide) (by decide) (by decide) (by decide)
  ⟨h.1, h.2.2.1⟩

/-- C9: for every policy and every preflight request (method `OPTIONS` in
`allowedMethods`, non-empty allowed `Origin`) whose upper-cased
`Access-Control-Request-Method` is in `allowedMethods` and whose
`Access-Control-Request-Headers` passes `areReqHeadersAllowed`, the response gets
`Access-Control-Allow-Methods` equal to the stored raw methods string and
`Access-Control-Allow-Headers` equal to the stored raw headers string,
`Access-Control-Allow-Credentials: true` when `allowCredentials` is set and no change
to that header otherwise, no change to `Access-Control-Expose-Headers`, and `Filter`
writes status 200 and calls `quit`. -/
theorem C9_preflight_ok_200 (T : CaseTables) (cors : Cors) (w : Resp)
    (r : Request) (hopt : r.Method = MethodOptions)
    (hm : MethodOptions ∈ cors.allowedMethods)
    (ho : r.Header.Get OriginHeader ≠ [])
    (ha : cors.isOriginAllowed T (r.Header.Get OriginHeader) = true)
    (hrm : ToUpper T (r.Header.Get AccessControlRequestMethod) ∈ cors.allowedMethods)
    (hrh : cors.areReqHeadersAllowed T (r.Header.Get AccessControlRequestHeaders) = true) :
    (cors.Filter T w r).header AccessControlAllowMethods = [cors.allowedMethodsString] ∧
    (cors.Filter T w r).header AccessControlAllowHeaders = [cors.allowHeadersString] ∧
    (cors.allowCredentials = true →
      (cors.Filter T w r).header AccessControlAllowCredentials = ["true".toList]) ∧
    (cors.allowCredentials = false →
      (cors.Filter T w r).header AccessControlAllowCredentials
        = w.header AccessControlAllowCredentials) ∧
    (cors.Filter T w r).header AccessControlExposeHeaders
      = w.header AccessControlExposeHeaders ∧
    (cors.Filter T w r).status = w.status ++ [200] ∧
    (cors.Filter T w r).quits = w.quits + 1 := by
  rw [Filter_preflight_ok T cors w r ho hopt hm ha hrm hrh]
  obtain ⟨hs, hq, hh⟩ := preflight_ok_resp cors (preflightResp w r)
  have e1 : AccessControlAllowMethods ≠ AccessControlControlMaxAge := by decide
  have e2 : AccessControlAllowMethods ≠ AccessControlAllowCredentials := by decide
  have e3 : AccessControlAllowMethods ≠ AccessControlAllowHeaders := by decide
  have e4 : AccessControlAllowHeaders ≠ AccessControlControlMaxAge := by decide
  have e5 : AccessControlAllowHeaders ≠ AccessControlAllowCredentials := by decide
  have e6 : AccessControlAllowCredentials ≠ AccessControlControlMaxAge := by decide
  have e7 : AccessControlAllowCredentials ≠ AccessControlAllowHeaders := by decide
  have e8 : AccessControlAllowCredentials ≠ AccessControlAllowMethods := by decide
  have e9 : AccessControlAllowCredentials ≠ VaryHeader := by decide
  have e10 : AccessControlAllowCredentials ≠ AccessControlAllowOrigin := by decide
  have f1 : AccessControlExposeHeaders ≠ AccessControlControlMaxAge := by decide
  have f2 : AccessControlExposeHeaders ≠ AccessControlAllowCredentials := by decide
  have f3 : AccessControlExposeHeaders ≠ AccessControlAllowHeaders := by decide
  have f4 : AccessControlExposeHeaders ≠ AccessControlAllowMethods := by decide
  have f5 : AccessControlExposeHeaders ≠ VaryHeader := by decide
  have f6 : AccessControlExposeHeaders ≠ AccessControlAllowOrigin := by decide
  refine ⟨?_, ?_, ?_, ?_, ?_, ?_, ?_⟩
  · rw [hh]; simp [e1, e2, e3]
  · rw [hh]; simp [e4, e5]
  · intro hc; rw [hh]; simp [e6, hc]
  · intro hc; rw [hh, preflightResp_header]; simp [e6, e7, e8, e9, e10, hc]
  · rw [hh, preflightResp_header]; simp [f1, f2, f3, f4, f5, f6]
  · rw [hs]; rfl
  · rw [hq]; rfl

/-- C9, worked example: under the default policy the preflight `OPTIONS /` with
`Origin: http://a.com`, requested method `GET` and requested header `Accept` ends with
200. -/
theorem C9_preflight_ok_200_witness :
    requestPreflightOk.Method = MethodOptions ∧
    MethodOptions ∈ (DefaultNew asciiTables).allowedMethods ∧
    (DefaultNew asciiTables).areReqHeadersAllowed asciiTables
      (requestPreflightOk.Header.Get AccessControlRequestHeaders) = true ∧
    ((DefaultNew asciiTables).Filter asciiTables emptyResp requestPreflightOk).status
      = [200] ∧
    ((DefaultNew asciiTables).Filter asciiTables emptyResp requestPreflightOk).quits = 1 :=
  have h := C9_preflight_ok_200 asciiTables (DefaultNew asciiTables) emptyResp
    requestPreflightOk (by decide) (by decide) (by decide) (by decide) (by decide)
    (by decide)
  ⟨by decide, by decide, by decide, h.2.2.2.2.2.1, h.2.2.2.2.2.2⟩

/-! ## The order of the method check and the origin check -/

theorem New_policyA :
    New asciiTables "http://a.com".toList "GET,POST".toList [] 0 [] false = some policyA := by
  rfl

theorem New_policyAOptions :
    New asciiTables "http://a.com".toList "GET,POST,OPTIONS".toList [] 0 [] false
      = some policyAOptions := by
  rfl

/-- C2, as stated, fails on its own scenario: the policy built from origins
`http://a.com` and methods `GET,POST` refuses `OPTIONS /` with `Origin: http://b.com`
with 405, not 403, because `OPTIONS` is not among its methods and the method is
checked before the origin. -/
theorem C2_counterexample :
    New asciiTables "http://a.com".toList "GET,POST".toList [] 0 [] false = some policyA ∧
    requestOptionsB.Method = MethodOptions ∧
    requestOptionsB.Header.Get OriginHeader ≠ [] ∧
    policyA.isOriginAllowed asciiTables (requestOptionsB.Header.Get OriginHeader) = false ∧
    (policyA.Filter asciiTables emptyResp requestOptionsB).status = [405] :=
  ⟨by rfl, by decide, by decide, by decide, by decide⟩

/-- C2, amended: for every policy whose `allowedMethods` contains `OPTIONS` and every
`OPTIONS` request whose non-empty `Origin` the policy does not allow, `Filter` writes
status 403 and calls `quit`; the preflight handler is not entered, whatever the
`Access-Control-Request-Method` and `Access-Control-Request-Headers` values are: the
only value added to `Vary` is `Origin`. -/
theorem C2_options_origin_refused_403 (T : CaseTables) (cors : Cors) (w : Resp)
    (r : Request) (hopt : r.Method = MethodOptions)
    (hm : MethodOptions ∈ cors.allowedMethods)
    (ho : r.Header.Get OriginHeader ≠ [])
    (ha : cors.isOriginAllowed T (r.Header.Get OriginHeader) = false) :
    (cors.Filter T w r).status = w.status ++ [403] ∧
    (cors.Filter T w r).quits = w.quits + 1 ∧
    (cors.Filter T w r).header VaryHeader = w.header VaryHeader ++ [OriginHeader] := by
  rw [Filter_of_origin_refused T cors w r ho (hopt ▸ hm) ha]
  refine ⟨rfl, rfl, ?_⟩
  rw [quit_header, WriteHeader_header, headerAdd_Vary_self]

/-- C2 amended, worked example: with methods `GET,POST,OPTIONS` the request
`OPTIONS /` with `Origin: http://b.com` is refused with 403. -/
theorem C2_options_origin_refused_403_witness :
    MethodOptions ∈ policyAOptions.allowedMethods ∧
    policyAOptions.isOriginAllowed asciiTables (requestOptionsB.Header.Get OriginHeader)
      = false ∧
    (policyAOptions.Filter asciiTables emptyResp requestOptionsB).status = [403] :=
  have h := C2_options_origin_refused_403 asciiTables policyAOptions emptyResp
    requestOptionsB (by decide) (by decide) (by decide) (by decide)
  ⟨by decide, by decide, h.1⟩

/-! ## The seven outcomes of `Filter` -/

theorem simple_status_quits (cors : Cors) (p : Resp) :
    ((fun w1 : Resp => if cors.allowCredentials then
          w1.headerSet AccessControlAllowCredentials "true".toList else w1)
        (if cors.exposeHeader then
          p.headerSet AccessControlExposeHeaders cors.exposedHeaders
         else p)).status = p.status ∧
    ((fun w1 : Resp => if cors.allowCredentials then
          w1.headerSet AccessControlAllowCredentials "true".toList else w1)
        (if cors.exposeHeader then
          p.headerSet AccessControlExposeHeaders cors.exposedHeaders
         else p)).quits = p.quits := by
  cases cors.allowCredentials <;> cases cors.exposeHeader <;> exact ⟨rfl, rfl⟩

/-- Every run of `Filter` takes exactly one of seven paths, each with a closed form of
the resulting state. -/
theorem Filter_cases (T : CaseTables) (cors : Cors) (w : Resp) (r : Request) :
    (r.Header.Get OriginHeader = [] ∧
      cors.Filter T w r = (w.headerAdd "Vary".toList OriginHeader).ctxSet "cors".toList false) ∨
    (r.Header.Get OriginHeader ≠ [] ∧ r.Method ∉ cors.allowedMethods ∧
      cors.Filter T w r
        = ((w.headerAdd "Vary".toList OriginHeader).WriteHeader StatusMethodNotAllowed).quit) ∨
    (r.Header.Get OriginHeader ≠ [] ∧ r.Method ∈ cors.allowedMethods ∧
      cors.isOriginAllowed T (r.Header.Get OriginHeader) = false ∧
      cors.Filter T w r
        = ((w.headerAdd "Vary".toList OriginHeader).WriteHeader StatusForbidden).quit) ∨
    (r.Header.Get OriginHeader ≠ [] ∧ r.Method ∈ cors.allowedMethods ∧
      cors.isOriginAllowed T (r.Header.Get OriginHeader) = true ∧
      r.Method ≠ MethodOptions ∧
      cors.Filter T w r =
        (fun w1 : Resp => if cors.allowCredentials then
            w1.headerSet AccessControlAllowCredentials "true".toList else w1)
          (if cors.exposeHeader then
            (acceptedResp w r).headerSet AccessControlExposeHeaders cors.exposedHeaders
           else acceptedResp w r)) ∨
    (r.Header.Get OriginHeader ≠ [] ∧ r.Method ∈ cors.allowedMethods ∧
      cors.isOriginAllowed T (r.Header.Get OriginHeader) = true ∧
      r.Method = MethodOptions ∧
      ToUpper T (r.Header.Get AccessControlRequestMethod) ∉ cors.allowedMethods ∧
      cors.Filter T w r = ((preflightResp w r).WriteHeader StatusMethodNotAllowed).quit) ∨
    (r.Header.Get OriginHeader ≠ [] ∧ r.Method ∈ cors.allowedMethods ∧
      cors.isOriginAllowed T (r.Header.Get OriginHeader) = true ∧
      r.Method = MethodOptions ∧
      ToUpper T (r.Header.Get AccessControlRequestMethod) ∈ cors.allowedMethods ∧
      cors.areReqHeadersAllowed T (r.Header.Get AccessControlRequestHeaders) = false ∧
      cors.Filter T w r = ((preflightResp w r).WriteHeader StatusForbidden).quit) ∨
    (r.Header.Get OriginHeader ≠ [] ∧ r.Method ∈ cors.allowedMethods ∧
      cors.isOriginAllowed T (r.Header.Get OriginHeader) = true ∧
      r.Method = MethodOptions ∧
      ToUpper T (r.Header.Get AccessControlRequestMethod) ∈ cors.allowedMethods ∧
      cors.areReqHeadersAllowed T (r.Header.Get AccessControlRequestHeaders) = true ∧
      cors.Filter T w r =
        (((fun w3 : Resp => if cors.maxAge ≠ "0".toList then
              w3.headerSet AccessControlControlMaxAge cors.maxAge else w3)
          ((fun w2 : Resp => if cors.allowCredentials then
              w2.headerSet AccessControlAllowCredentials "true".toList else w2)
            (((preflightResp w r).headerSet AccessControlAllowMethods
              cors.allowedMethodsString).headerSet AccessControlAllowHeaders
              cors.allowHeadersString))).WriteHeader StatusOK).quit) := by
  by_cases ho : r.Header.Get OriginHeader = []
  · exact Or.inl ⟨ho, Filter_of_no_origin T cors w r ho⟩
  by_cases hm : r.Method ∈ cors.allowedMethods
  swap
  · exact Or.inr (Or.inl ⟨ho, hm, Filter_of_method_refused T cors w r ho hm⟩)
  cases ha : cors.isOriginAllowed T (r.Header.Get OriginHeader)
  · exact Or.inr (Or.inr (Or.inl ⟨ho, hm, rfl, Filter_of_origin_refused T cors w r ho hm ha⟩))
  by_cases hopt : r.Method = MethodOptions
  swap
  · exact Or.inr (Or.inr (Or.inr (Or.inl
      ⟨ho, hm, rfl, hopt, Filter_of_simple T cors w r ho hm hopt ha⟩)))
  have hm2 : MethodOptions ∈ cors.allowedMethods := hopt ▸ hm
  by_cases hrm : ToUpper T (r.Header.Get AccessControlRequestMethod) ∈ cors.allowedMethods
  swap
  · exact Or.inr (Or.inr (Or.inr (Or.inr (Or.inl
      ⟨ho, hm, rfl, hopt, hrm,
        Filter_preflight_method_refused T cors w r ho hopt hm2 ha hrm⟩))))
  cases hrh : cors.areReqHeadersAllowed T (r.Header.Get AccessControlRequestHeaders)
  · exact Or.inr (Or.inr (Or.inr (Or.inr (Or.inr (Or.inl
      ⟨ho, hm, rfl, hopt, hrm, rfl,
        Filter_preflight_headers_refused T cors w r ho hopt hm2 ha hrm hrh⟩)))))
  · exact Or.inr (Or.inr (Or.inr (Or.inr (Or.inr (Or.inr
      ⟨ho, hm, rfl, hopt, hrm, rfl,
        Filter_preflight_ok T cors w r ho hopt hm2 ha hrm hrh⟩)))))

theorem preflightResp_status (w : Resp) (r : Request) :
    (preflightResp w r).status = w.status ∧ (preflightResp w r).quits = w.quits :=
  ⟨rfl, rfl⟩

/-! ## The decimal rendering of the max-age -/

theorem toDigitsCore_length_ge (b : Nat) : ∀ (f n : Nat) (acc : List Char),
    acc.length ≤ (Nat.toDigitsCore b f n acc).length := by
  intro f
  induction f with
  | zero => intro n acc; simp [Nat.toDigitsCore]
  | succ f ih =>
    intro n acc
    simp only [Nat.toDigitsCore]
    split
    · simp
    · exact le_trans (by simp) (ih _ _)

theorem toDigitsCore_length_gt (b f n : Nat) (acc : List Char) (hf : 0 < f) :
    acc.length + 1 ≤ (Nat.toDigitsCore b f n acc).length := by
  cases f with
  | zero => exact absurd hf (lt_irrefl 0)
  | succ f =>
    simp only [Nat.toDigitsCore]
    split
    · simp
    · exact le_trans (by simp) (toDigitsCore_length_ge b f _ _)

theorem toDigits_eq_zero_iff (n : Nat) : Nat.toDigits 10 n = ['0'] ↔ n = 0 := by
  constructor
  · intro h
    by_contra hn
    unfold Nat.toDigits at h
    simp only [Nat.toDigitsCore] at h
    by_cases h10 : n / 10 = 0
    · simp only [h10, if_true] at h
      have hlt : n < 10 := by omega
      have hmod : n % 10 = n := Nat.mod_eq_of_lt hlt
      rw [hmod] at h
      interval_cases n <;> simp_all [Nat.digitChar]
    · simp only [h10, if_false] at h
      have hlen := toDigitsCore_length_gt 10 n (n / 10) [Nat.digitChar (n % 10)]
        (Nat.pos_of_ne_zero hn)
      rw [h] at hlen
      simp at hlen
  · rintro rfl; rfl

/-- Only the integer 0 is rendered as `0`. -/
theorem Itoa_eq_zero_iff (n : Int) : Itoa n = ['0'] ↔ n = 0 := by
  unfold Itoa
  by_cases hn : n < 0
  · simp only [hn, if_true]
    constructor
    · intro h
      have h1 := (List.cons.inj h).1
      exact absurd h1 (by decide)
    · intro h; omega
  · simp only [hn, if_false]
    rw [toDigits_eq_zero_iff]
    omega

/-- For every policy: `Filter` sets `Access-Control-Max-Age`, to the stored string,
exactly when it writes status 200 and the stored string is not `0`. -/
theorem Filter_maxAge_header (T : CaseTables) (cors : Cors) (w : Resp) (r : Request) :
    ((cors.Filter T w r).status = w.status ++ [200] ∧ cors.maxAge ≠ ['0'] →
      (cors.Filter T w r).header AccessControlControlMaxAge = [cors.maxAge]) ∧
    (¬ ((cors.Filter T w r).status = w.status ++ [200] ∧ cors.maxAge ≠ ['0']) →
      (cors.Filter T w r).header AccessControlControlMaxAge
        = w.header AccessControlControlMaxAge) := by
  have m1 : AccessControlControlMaxAge ≠ VaryHeader := by decide
  have m2 : AccessControlControlMaxAge ≠ AccessControlAllowOrigin := by decide
  have m3 : AccessControlControlMaxAge ≠ AccessControlAllowCredentials := by decide
  have m4 : AccessControlControlMaxAge ≠ AccessControlExposeHeaders := by decide
  have m5 : AccessControlControlMaxAge ≠ AccessControlAllowHeaders := by decide
  have m6 : AccessControlControlMaxAge ≠ AccessControlAllowMethods := by decide
  rcases Filter_cases T cors w r with
    ⟨_, hF⟩ | ⟨_, _, hF⟩ | ⟨_, _, _, hF⟩ | ⟨_, _, _, _, hF⟩ | ⟨_, _, _, _, _, hF⟩ |
    ⟨_, _, _, _, _, _, hF⟩ | ⟨_, _, _, _, _, _, hF⟩
  · rw [hF]
    refine ⟨fun h => ?_, fun _ => ?_⟩
    · exact absurd h.1 (by simp [Resp.ctxSet, Resp.headerAdd])
    · rw [ctxSet_header, headerAdd_Vary_other _ _ _ m1]
  · rw [hF]
    refine ⟨fun h => ?_, fun _ => ?_⟩
    · exact absurd h.1 (by
        simp [Resp.quit, Resp.WriteHeader, Resp.headerAdd, StatusMethodNotAllowed])
    · rw [quit_header, WriteHeader_header, headerAdd_Vary_other _ _ _ m1]
  · rw [hF]
    refine ⟨fun h => ?_, fun _ => ?_⟩
    · exact absurd h.1 (by
        simp [Resp.quit, Resp.WriteHeader, Resp.headerAdd, StatusForbidden])
    · rw [quit_header, WriteHeader_header, headerAdd_Vary_other _ _ _ m1]
  · rw [hF]
    refine ⟨fun h => ?_, fun _ => ?_⟩
    · have hs := (simple_status_quits cors (acceptedResp w r)).1
      rw [hs] at h
      exact absurd h.1 (by simp [acceptedResp, Resp.headerSet, Resp.ctxSet, Resp.headerAdd])
    · rw [simple_header, acceptedResp_header]
      simp [m1, m2, m3, m4]
  · rw [hF]
    refine ⟨fun h => ?_, fun _ => ?_⟩
    · exact absurd h.1 (by
        simp [Resp.quit, Resp.WriteHeader, (preflightResp_status w r).1,
          StatusMethodNotAllowed])
    · rw [quit_header, WriteHeader_header, preflightResp_header]
      simp [m1, m2]
  · rw [hF]
    refine ⟨fun h => ?_, fun _ => ?_⟩
    · exact absurd h.1 (by
        simp [Resp.quit, Resp.WriteHeader, (preflightResp_status w r).1, StatusForbidden])
    · rw [quit_header, WriteHeader_header, preflightResp_header]
      simp [m1, m2]
  · rw [hF]
    obtain ⟨hs, _, hh⟩ := preflight_ok_resp cors (preflightResp w r)
    refine ⟨fun h => ?_, fun h => ?_⟩
    · rw [hh]
      have h2 := h.2
      simp [h2]
    · rw [hs, (preflightResp_status w r).1] at h
      have h0 : cors.maxAge = ['0'] := by
        by_contra hne
        exact h ⟨rfl, hne⟩
      rw [hh, preflightResp_header]
      simp [h0, m1, m2, m3, m5, m6]

/-- C10: for every configuration with max-age `n`, `New` returns a policy, and for every
request under that policy: when `Filter` writes status 200 (a successful preflight)
and `n` is not 0, the response header `Access-Control-Max-Age` is set to the decimal
rendering of `n`; in every other case `Filter` leaves that header as it was, so a
fresh response carries it if and only if the preflight succeeded and `n` is not 0.
The rendering of 0 is `0` and that of 600 is `600`. -/
theorem C10_max_age_header (T : CaseTables) (ao am ah : GoString) (n : Int) (eh : GoString)
    (cred : Bool) :
    ∃ cors, New T ao am ah n eh cred = some cors ∧
      (∀ (w : Resp) (r : Request),
        ((cors.Filter T w r).status = w.status ++ [200] ∧ n ≠ 0 →
          (cors.Filter T w r).header AccessControlControlMaxAge = [Itoa n]) ∧
        (¬ ((cors.Filter T w r).status = w.status ++ [200] ∧ n ≠ 0) →
          (cors.Filter T w r).header AccessControlControlMaxAge
            = w.header AccessControlControlMaxAge) ∧
        (w.header AccessControlControlMaxAge = [] →
          ((cors.Filter T w r).header AccessControlControlMaxAge ≠ [] ↔
            ((cors.Filter T w r).status = w.status ++ [200] ∧ n ≠ 0)))) ∧
      Itoa 0 = "0".toList ∧ Itoa 600 = "600".toList := by
  refine ⟨builtPolicy T ao am ah n eh cred, New_eq_some T ao am ah n eh cred, ?_,
    by decide, by decide⟩
  intro w r
  have hmax : (builtPolicy T ao am ah n eh cred).maxAge = Itoa n := rfl
  have hiff : (builtPolicy T ao am ah n eh cred).maxAge ≠ ['0'] ↔ n ≠ 0 := by
    rw [hmax]; exact not_congr (Itoa_eq_zero_iff n)
  obtain ⟨h1, h2⟩ := Filter_maxAge_header T (builtPolicy T ao am ah n eh cred) w r
  rw [hiff, hmax] at h1
  rw [hiff] at h2
  refine ⟨h1, h2, ?_⟩
  intro hw
  constructor
  · intro hne
    by_contra hcon
    exact hne ((h2 hcon).trans hw)
  · intro hc
    rw [h1 hc]
    exact List.cons_ne_nil _ _

/-- C10, worked example: with max-age 600 the successful preflight of the default
methods and headers carries `Access-Control-Max-Age: 600`; with max-age 0 the same
preflight carries no such header. -/
theorem C10_max_age_header_witness :
    ((builtPolicy asciiTables [] [] [] 600 [] false).Filter asciiTables emptyResp
      requestPreflightOk).status = [200] ∧
    ((builtPolicy asciiTables [] [] [] 600 [] false).Filter asciiTables emptyResp
      requestPreflightOk).header AccessControlControlMaxAge = ["600".toList] ∧
    ((builtPolicy asciiTables [] [] [] 0 [] false).Filter asciiTables emptyResp
      requestPreflightOk).status = [200] ∧
    ((builtPolicy asciiTables [] [] [] 0 [] false).Filter asciiTables emptyResp
      requestPreflightOk).header AccessControlControlMaxAge = [] := by
  obtain ⟨c600, hc600, h600, _, _⟩ :=
    C10_max_age_header asciiTables [] [] [] 600 [] false
  obtain ⟨c0, hc0, h0, _, _⟩ := C10_max_age_header asciiTables [] [] [] 0 [] false
  rw [New_eq_some] at hc600 hc0
  cases hc600
  cases hc0
  have s600 : ((builtPolicy asciiTables [] [] [] 600 [] false).Filter asciiTables emptyResp
      requestPreflightOk).status = [200] := by decide
  have s0 : ((builtPolicy asciiTables [] [] [] 0 [] false).Filter asciiTables emptyResp
      requestPreflightOk).status = [200] := by decide
  refine ⟨s600, ?_, s0, ?_⟩
  · have := (h600 emptyResp requestPreflightOk).1 ⟨s600, by decide⟩
    rw [this]; decide
  · exact (h0 emptyResp requestPreflightOk).2.1 (fun h => h.2 rfl)

/-! ## The requested-headers check -/

theorem ascii_case_facts : ∀ n : Nat, n < 128 →
    (Char.ofNat n).toUpper.toNat < 128 ∧ (Char.ofNat n).toLower.toNat < 128 ∧
    (Char.ofNat n).toUpper.toLower = (Char.ofNat n).toLower ∧
    (Char.ofNat n).toLower.toLower = (Char.ofNat n).toLower := by
  decide

theorem validHeaderFieldByte_ascii {c : Char} (h : validHeaderFieldByte c = true) :
    c.toNat < 128 := by
  simp only [validHeaderFieldByte, Bool.or_eq_true, Bool.and_eq_true, decide_eq_true_eq,
    List.mem_cons, List.mem_singleton, List.not_mem_nil, or_false] at h
  omega

/-- Lower-casing undoes the ASCII case change of the canonicalisation. -/
theorem lower_canonical_char (T : CaseTables) (c : Char) (hc : c.toNat < 128) (up : Bool) :
    T.lower (if up = true then c.toUpper else c.toLower) = T.lower c := by
  have hfacts := ascii_case_facts c.toNat hc
  rw [Char.ofNat_toNat] at hfacts
  obtain ⟨h1, h2, h3, h4⟩ := hfacts
  cases up
  · simp only [Bool.false_eq_true, if_false]
    rw [T.lower_ascii _ h2, T.lower_ascii _ hc, h4]
  · simp only [if_true]
    rw [T.lower_ascii _ h1, T.lower_ascii _ hc, h3]

theorem ToLower_canonicalGo (T : CaseTables) (s : GoString)
    (hs : ∀ c ∈ s, validHeaderFieldByte c = true) (up : Bool) :
    ToLower T (canonicalGo up s) = ToLower T s := by
  induction s generalizing up with
  | nil => rfl
  | cons c t ih =>
    have hc := validHeaderFieldByte_ascii (hs c (List.mem_cons_self c t))
    have ht : ∀ d ∈ t, validHeaderFieldByte d = true :=
      fun d hd => hs d (List.mem_cons_of_mem c hd)
    have ih2 := ih ht
    simp only [ToLower] at ih2 ⊢
    simp only [canonicalGo, List.map_cons, lower_canonical_char T c hc up, ih2]

/-- The lower-cased canonical key is the lower-cased key: `http.CanonicalHeaderKey`
changes nothing but the case of ASCII letters. -/
theorem ToLower_CanonicalHeaderKey (T : CaseTables) (s : GoString) :
    ToLower T (CanonicalHeaderKey s) = ToLower T s := by
  unfold CanonicalHeaderKey
  by_cases h : s.all validHeaderFieldByte = true
  · rw [if_pos h]
    exact ToLower_canonicalGo T s (List.all_eq_true.1 h) true
  · rw [if_neg h]

theorem isHeaderAllowed_iff (T : CaseTables) (cors : Cors) (h : GoString) :
    cors.isHeaderAllowed T h = true ↔ ToLower T h ∈ cors.allowedHeaders := by
  unfold Cors.isHeaderAllowed
  rw [List.any_eq_true]
  constructor
  · rintro ⟨x, hx, hxm⟩
    rw [beq_iff_eq] at hxm
    exact hxm ▸ hx
  · intro hmem
    exact ⟨_, hmem, beq_self_eq_true _⟩

/-- The header-list check, as a statement about the tokens of the list. -/
theorem areReqHeadersAllowed_iff (T : CaseTables) (cors : Cors) (s : GoString) :
    cors.areReqHeadersAllowed T s = true ↔
      (s = [] ∨ ∀ t ∈ Split s ',', ToLower T (TrimSpace t) ∈ cors.allowedHeaders) := by
  unfold Cors.areReqHeadersAllowed
  by_cases hs : s = []
  · subst hs
    simp
  · have hlen : s.length ≠ 0 := fun h => hs (List.length_eq_zero.1 h)
    rw [if_neg hlen, List.all_eq_true]
    constructor
    · intro h
      right
      intro t ht
      have := h t ht
      rw [isHeaderAllowed_iff, ToLower_CanonicalHeaderKey] at this
      exact this
    · rintro (h | h)
      · exact absurd h hs
      · intro t ht
        rw [isHeaderAllowed_iff, ToLower_CanonicalHeaderKey]
        exact h t ht

/-- C8: the header-list check is fail-closed.  For every policy and every string `s`,
`areReqHeadersAllowed(s)` holds if and only if `s` is empty or every comma-separated
token of `s`, trimmed and lower-cased, is an element of `allowedHeaders`.  And for
every preflight request that passed the requested-method check and whose non-empty
`Access-Control-Request-Headers` has a token that, trimmed and lower-cased, is not in
`allowedHeaders`, `Filter` writes status 403 and calls `quit`, and leaves
`Access-Control-Allow-Methods`, `Access-Control-Allow-Headers` and
`Access-Control-Max-Age` as they were, whatever the other tokens are. -/
theorem C8_headers_check_fail_closed (T : CaseTables) (cors : Cors) :
    (∀ s : GoString, cors.areReqHeadersAllowed T s = true ↔
      (s = [] ∨ ∀ t ∈ Split s ',', ToLower T (TrimSpace t) ∈ cors.allowedHeaders)) ∧
    (∀ (w : Resp) (r : Request),
      r.Method = MethodOptions → MethodOptions ∈ cors.allowedMethods →
      r.Header.Get OriginHeader ≠ [] →
      cors.isOriginAllowed T (r.Header.Get OriginHeader) = true →
      ToUpper T (r.Header.Get AccessControlRequestMethod) ∈ cors.allowedMethods →
      r.Header.Get AccessControlRequestHeaders ≠ [] →
      (∃ t ∈ Split (r.Header.Get AccessControlRequestHeaders) ',',
        ToLower T (TrimSpace t) ∉ cors.allowedHeaders) →
      (cors.Filter T w r).status = w.status ++ [403] ∧
      (cors.Filter T w r).quits = w.quits + 1 ∧
      (cors.Filter T w r).header AccessControlAllowMethods
        = w.header AccessControlAllowMethods ∧
      (cors.Filter T w r).header AccessControlAllowHeaders
        = w.header AccessControlAllowHeaders ∧
      (cors.Filter T w r).header AccessControlControlMaxAge
        = w.header AccessControlControlMaxAge) := by
  refine ⟨areReqHeadersAllowed_iff T cors, ?_⟩
  intro w r hopt hm ho ha hrm hne hbad
  have hrh : cors.areReqHeadersAllowed T (r.Header.Get AccessControlRequestHeaders)
      = false := by
    cases hb : cors.areReqHeadersAllowed T (r.Header.Get AccessControlRequestHeaders)
    · rfl
    · rcases (areReqHeadersAllowed_iff T cors _).1 hb with h | h
      · exact absurd h hne
      · obtain ⟨t, ht, hnot⟩ := hbad
        exact absurd (h t ht) hnot
  rw [Filter_preflight_headers_refused T cors w r ho hopt hm ha hrm hrh]
  refine ⟨rfl, rfl, ?_, ?_, ?_⟩ <;>
    rw [quit_header, WriteHeader_header, preflightResp_header,
      if_neg (by decide), if_neg (by decide)]

/-- C8, worked example: with `X-Ok` the only allowed header, the preflight asking for
`X-Ok,X-Bad` is refused with 403, while the list `X-Ok` alone passes the check. -/
theorem C8_headers_check_fail_closed_witness :
    New asciiTables "*".toList [] "X-Ok".toList 0 [] false = some policyXOk ∧
    (policyXOk.Filter asciiTables emptyResp requestXOkXBad).status = [403] ∧
    policyXOk.areReqHeadersAllowed asciiTables "X-Ok".toList = true :=
  have h := C8_headers_check_fail_closed asciiTables policyXOk
  ⟨by rfl,
   ((h.2 emptyResp requestXOkXBad (by decide) (by decide) (by decide) (by decide)
      (by decide) (by decide) ⟨"X-Bad".toList, by decide, by decide⟩).1),
   (h.1 "X-Ok".toList).2 (Or.inr (by decide))⟩

/-! ## Origin patterns are searched for, not matched against the whole origin -/

/-- The search of `MatchString` succeeds exactly when the pattern matches at the
start of some suffix of the string. -/
theorem MatchString_iff (re : Regexp) (s : GoString) :
    MatchString re s = true ↔ ∃ t, t <:+ s ∧ matchHere re t = true := by
  induction s with
  | nil =>
    simp only [MatchString, List.suffix_nil]
    constructor
    · intro h; exact ⟨[], rfl, h⟩
    · rintro ⟨t, rfl, h⟩; exact h
  | cons c u ih =>
    simp only [MatchString, Bool.or_eq_true, ih]
    constructor
    · rintro (h | ⟨t, ht, h⟩)
      · exact ⟨c :: u, List.suffix_refl _, h⟩
      · exact ⟨t, ht.trans (List.suffix_cons c u), h⟩
    · rintro ⟨t, ht, h⟩
      rcases List.suffix_cons_iff.1 ht with rfl | ht2
      · exact Or.inl h
      · exact Or.inr ⟨t, ht2, h⟩

/-- A pattern of literals matches at the start of a string exactly when the literal
text is a prefix of the string. -/
theorem matchHere_literal (e s : GoString) :
    matchHere (e.map fun c => Piece.one (Atom.lit c)) s = true ↔ e <+: s := by
  induction e generalizing s with
  | nil => simp [matchHere]
  | cons c t ih =>
    cases s with
    | nil => simp [matchHere]
    | cons d u =>
      simp only [List.map_cons, matchHere, Bool.and_eq_true, ih, Atom.accepts, beq_iff_eq,
        List.cons_prefix_cons]

/-- The entry without wildcard compiles to the pattern of its literals. -/
theorem globRegexp_literal (o : GoString)
    (h : ∀ c ∈ TrimSpace o, c ≠ '*' ∧ c ≠ '?') :
    globRegexp o = (TrimSpace o).map fun c => Piece.one (Atom.lit c) := by
  unfold globRegexp
  apply List.map_congr_left
  intro c hc
  obtain ⟨h1, h2⟩ := h c hc
  simp [globPiece, h1, h2]

/-- What the code does for entries without wildcard: an origin is allowed exactly when
its lower-cased text contains one of the trimmed, lower-cased entries as a contiguous
substring. -/
theorem isOriginAllowed_literal_iff (T : CaseTables) (ao am ah : GoString) (n : Int)
    (eh : GoString) (cred : Bool) (hao : 0 < ao.length ∧ ao ≠ "*".toList)
    (hlit : ∀ e ∈ Split (ToLower T ao) ',', ∀ c ∈ TrimSpace e, c ≠ '*' ∧ c ≠ '?')
    (o : GoString) :
    (builtPolicy T ao am ah n eh cred).isOriginAllowed T o = true ↔
      ∃ e ∈ Split (ToLower T ao) ',', TrimSpace e <:+: ToLower T o := by
  have hall : (builtPolicy T ao am ah n eh cred).allowAllOrigins = false := by
    simp only [builtPolicy]
    rw [decide_eq_true hao]
    rfl
  have hpat : (builtPolicy T ao am ah n eh cred).allowedOrigins
      = (Split (ToLower T ao) ',').map globRegexp := by
    simp only [builtPolicy]
    rw [if_pos hao]
  unfold Cors.isOriginAllowed
  rw [hall, hpat]
  simp only [Bool.false_eq_true, if_false, List.any_eq_true, List.mem_map]
  constructor
  · rintro ⟨re, ⟨e, he, rfl⟩, hmatch⟩
    refine ⟨e, he, ?_⟩
    rw [globRegexp_literal e (hlit e he), MatchString_iff] at hmatch
    obtain ⟨t, ht, hpre⟩ := hmatch
    exact List.infix_iff_prefix_suffix.2 ⟨t, (matchHere_literal _ _).1 hpre, ht⟩
  · rintro ⟨e, he, hinf⟩
    refine ⟨globRegexp e, ⟨e, he, rfl⟩, ?_⟩
    rw [globRegexp_literal e (hlit e he), MatchString_iff]
    obtain ⟨t, hpre, ht⟩ := List.infix_iff_prefix_suffix.1 hinf
    exact ⟨t, ht, (matchHere_literal _ _).2 hpre⟩

/-- C3, the code at the failing input: the policy built from the single origin
`http://a.com` allows the origins `http://a.com.evil.net` and `evilhttp://a.com`, which
merely contain the configured entry; neither is equal to the entry. -/
theorem C3_origin_containing_entry_is_allowed :
    New asciiTables "http://a.com".toList "GET,POST".toList [] 0 [] false = some policyA ∧
    (Split (ToLower asciiTables "http://a.com".toList) ',').map TrimSpace
      = ["http://a.com".toList] ∧
    ToLower asciiTables "http://a.com.evil.net".toList ≠ "http://a.com".toList ∧
    policyA.isOriginAllowed asciiTables "http://a.com.evil.net".toList = true ∧
    ToLower asciiTables "evilhttp://a.com".toList ≠ "http://a.com".toList ∧
    policyA.isOriginAllowed asciiTables "evilhttp://a.com".toList = true ∧
    policyA.isOriginAllowed asciiTables "http://a.com".toList = true ∧
    policyA.isOriginAllowed asciiTables "http://b.com".toList = false :=
  ⟨by rfl, by decide, by decide, by decide, by decide, by decide, by decide, by decide⟩

/-! ## Terminal states -/

/-- The guards of the seven terminal states exclude one another. -/
theorem Verdict.reached_unique (T : CaseTables) (cors : Cors) (r : Request)
    (v v2 : Verdict) (h : v.reached T cors r) (h2 : v2.reached T cors r) : v = v2 := by
  cases v <;> cases v2 <;> simp only [Verdict.reached] at h h2 <;>
    first
      | rfl
      | (exfalso; simp_all; done)
      | (exfalso; exact h.2 h2.2.1)

/-- Every run of `Filter` ends in a terminal state whose guard holds, with the status
codes, `quit` calls, context marks and `Vary` values of that state. -/
theorem Filter_verdict (T : CaseTables) (cors : Cors) (w : Resp) (r : Request) :
    ∃ v : Verdict, v.reached T cors r ∧
      (cors.Filter T w r).status = w.status ++ v.statusWritten ∧
      (cors.Filter T w r).quits = w.quits + v.quitCalls ∧
      (cors.Filter T w r).ctx = w.ctx ++ v.marks ∧
      (cors.Filter T w r).header VaryHeader = w.header VaryHeader ++ v.varyAdded := by
  have v1 : VaryHeader ≠ AccessControlAllowOrigin := by decide
  have v2 : VaryHeader ≠ AccessControlAllowCredentials := by decide
  have v3 : VaryHeader ≠ AccessControlExposeHeaders := by decide
  have v4 : VaryHeader ≠ AccessControlControlMaxAge := by decide
  have v5 : VaryHeader ≠ AccessControlAllowHeaders := by decide
  have v6 : VaryHeader ≠ AccessControlAllowMethods := by decide
  rcases Filter_cases T cors w r with
    ⟨h1, hF⟩ | ⟨h1, h2, hF⟩ | ⟨h1, h2, h3, hF⟩ | ⟨h1, h2, h3, h4, hF⟩ |
    ⟨h1, h2, h3, h4, h5, hF⟩ | ⟨h1, h2, h3, h4, h5, h6, hF⟩ | ⟨h1, h2, h3, h4, h5, h6, hF⟩
  · refine ⟨Verdict.NOT_CORS, h1, ?_, ?_, ?_, ?_⟩ <;> rw [hF]
    · simp [Verdict.statusWritten, Resp.ctxSet, Resp.headerAdd]
    · rfl
    · rfl
    · rw [ctxSet_header, headerAdd_Vary_self]; rfl
  · refine ⟨Verdict.METHOD_REJECTED, ⟨h1, h2⟩, ?_, ?_, ?_, ?_⟩ <;> rw [hF]
    · rfl
    · rfl
    · simp [Verdict.marks, Resp.quit, Resp.WriteHeader, Resp.headerAdd]
    · rw [quit_header, WriteHeader_header, headerAdd_Vary_self]; rfl
  · refine ⟨Verdict.ORIGIN_REJECTED, ⟨h1, h2, h3⟩, ?_, ?_, ?_, ?_⟩ <;> rw [hF]
    · rfl
    · rfl
    · simp [Verdict.marks, Resp.quit, Resp.WriteHeader, Resp.headerAdd]
    · rw [quit_header, WriteHeader_header, headerAdd_Vary_self]; rfl
  · refine ⟨Verdict.SIMPLE_CORS, ⟨h1, h2, h3, h4⟩, ?_, ?_, ?_, ?_⟩ <;> rw [hF]
    · rw [(simple_status_quits cors (acceptedResp w r)).1]
      simp [Verdict.statusWritten, acceptedResp, Resp.headerSet, Resp.ctxSet, Resp.headerAdd]
    · rw [(simple_status_quits cors (acceptedResp w r)).2]; rfl
    · cases cors.allowCredentials <;> cases cors.exposeHeader <;> rfl
    · rw [simple_header, acceptedResp_header]
      simp [v1, v2, v3, Verdict.varyAdded]
  · refine ⟨Verdict.PREFLIGHT_METHOD_REJECTED, ⟨h1, h2, h3, h4, h5⟩, ?_, ?_, ?_, ?_⟩ <;>
      rw [hF]
    · rfl
    · rfl
    · simp [Verdict.marks, Resp.quit, Resp.WriteHeader, preflightResp, Resp.ctxSet,
        Resp.headerAdd, acceptedResp, Resp.headerSet]
    · rw [quit_header, WriteHeader_header, preflightResp_header, if_pos rfl]; rfl
  · refine ⟨Verdict.PREFLIGHT_HEADERS_REJECTED, ⟨h1, h2, h3, h4, h5, h6⟩, ?_, ?_, ?_, ?_⟩ <;>
      rw [hF]
    · rfl
    · rfl
    · simp [Verdict.marks, Resp.quit, Resp.WriteHeader, preflightResp, Resp.ctxSet,
        Resp.headerAdd, acceptedResp, Resp.headerSet]
    · rw [quit_header, WriteHeader_header, preflightResp_header, if_pos rfl]; rfl
  · obtain ⟨hs, hq, hh⟩ := preflight_ok_resp cors (preflightResp w r)
    refine ⟨Verdict.PREFLIGHT_OK, ⟨h1, h2, h3, h4, h5, h6⟩, ?_, ?_, ?_, ?_⟩ <;> rw [hF]
    · rw [hs]; rfl
    · rw [hq]; rfl
    · cases cors.allowCredentials <;> by_cases h0 : cors.maxAge = ['0'] <;>
        simp [h0, Resp.quit, Resp.WriteHeader, Resp.headerSet, preflightResp, Resp.ctxSet,
          Resp.headerAdd, acceptedResp, Verdict.marks]
    · rw [hh, preflightResp_header]
      simp [v2, v4, v5, v6, Verdict.varyAdded]

/-- The terminal state reached is one of the preflight path exactly when the request
is an `OPTIONS` request with a non-empty allowed origin under a policy that lists
`OPTIONS`. -/
theorem Verdict.isPreflight_iff (T : CaseTables) (cors : Cors) (r : Request) (v : Verdict)
    (hr : v.reached T cors r) :
    v.isPreflight = true ↔
      (r.Header.Get OriginHeader ≠ [] ∧ r.Method = MethodOptions ∧
        MethodOptions ∈ cors.allowedMethods ∧
        cors.isOriginAllowed T (r.Header.Get OriginHeader) = true) := by
  cases v
  · exact ⟨fun h => absurd h (by decide), fun h => absurd hr h.1⟩
  · exact ⟨fun h => absurd h (by decide), fun h => absurd (h.2.1 ▸ h.2.2.1) hr.2⟩
  · refine ⟨fun h => absurd h (by decide), fun h => ?_⟩
    have h3 := hr.2.2
    rw [h.2.2.2] at h3
    exact absurd h3 (by decide)
  · exact ⟨fun h => absurd h (by decide), fun h => absurd h.2.1 hr.2.2.2⟩
  · exact ⟨fun _ => ⟨hr.1, hr.2.2.2.1, hr.2.2.2.1 ▸ hr.2.1, hr.2.2.1⟩, fun _ => rfl⟩
  · exact ⟨fun _ => ⟨hr.1, hr.2.2.2.1, hr.2.2.2.1 ▸ hr.2.1, hr.2.2.1⟩, fun _ => rfl⟩
  · exact ⟨fun _ => ⟨hr.1, hr.2.2.2.1, hr.2.2.2.1 ▸ hr.2.1, hr.2.2.1⟩, fun _ => rfl⟩

/-- C11: a preflight request never reaches the application handler.  For every policy
and every request with method `OPTIONS` and a non-empty `Origin` header, `Filter`
calls `quit` and writes one status code, 405, 403 or 200, whether the outcome is a
rejection or a success. -/
theorem C11_options_request_always_halts (T : CaseTables) (cors : Cors) (w : Resp)
    (r : Request) (hopt : r.Method = MethodOptions) (ho : r.Header.Get OriginHeader ≠ []) :
    (cors.Filter T w r).quits = w.quits + 1 ∧
    ∃ c, c ∈ [405, 403, 200] ∧ (cors.Filter T w r).status = w.status ++ [c] := by
  obtain ⟨v, hr, hs, hq, _, _⟩ := Filter_verdict T cors w r
  cases v
  · exact absurd hr ho
  · exact ⟨hq, 405, by decide, hs⟩
  · exact ⟨hq, 403, by decide, hs⟩
  · exact absurd hopt hr.2.2.2
  · exact ⟨hq, 405, by decide, hs⟩
  · exact ⟨hq, 403, by decide, hs⟩
  · exact ⟨hq, 200, by decide, hs⟩

/-- C11, worked example: under the default policy both the refused preflight (requested
method `DELETE`) and the successful one end with one call of `quit`. -/
theorem C11_options_request_always_halts_witness :
    requestDelete.Method = MethodOptions ∧ requestDelete.Header.Get OriginHeader ≠ [] ∧
    ((DefaultNew asciiTables).Filter asciiTables emptyResp requestDelete).quits = 1 ∧
    ((DefaultNew asciiTables).Filter asciiTables emptyResp requestPreflightOk).quits = 1 :=
  ⟨by decide, by decide,
    (C11_options_request_always_halts asciiTables (DefaultNew asciiTables) emptyResp
      requestDelete (by decide) (by decide)).1,
    (C11_options_request_always_halts asciiTables (DefaultNew asciiTables) emptyResp
      requestPreflightOk (by decide) (by decide)).1⟩

/-- C12: every request evaluation ends with exactly one verdict.  For every policy and
request exactly one of the seven terminal states has its guard satisfied, and `Filter`
writes the status codes and makes the `quit` calls of that state; so `Filter` writes
a status code at most once and calls `quit` at most once, it calls `quit` if and only
if it writes a status code, the code written is 405, 403 or 200, and 200 is written
only for a request whose method is `OPTIONS`. -/
theorem C12_exactly_one_verdict (T : CaseTables) (cors : Cors) (w : Resp) (r : Request) :
    (∃! v : Verdict, v.reached T cors r ∧
      (cors.Filter T w r).status = w.status ++ v.statusWritten ∧
      (cors.Filter T w r).quits = w.quits + v.quitCalls) ∧
    ((cors.Filter T w r).status = w.status ∨
      ∃ c, c ∈ [405, 403, 200] ∧ (cors.Filter T w r).status = w.status ++ [c]) ∧
    ((cors.Filter T w r).quits = w.quits ∨ (cors.Filter T w r).quits = w.quits + 1) ∧
    ((cors.Filter T w r).quits = w.quits + 1 ↔ (cors.Filter T w r).status ≠ w.status) ∧
    ((cors.Filter T w r).status = w.status ++ [200] → r.Method = MethodOptions) := by
  obtain ⟨v, hr, hs, hq, _, _⟩ := Filter_verdict T cors w r
  refine ⟨⟨v, ⟨hr, hs, hq⟩, fun v2 h2 => Verdict.reached_unique T cors r v2 v h2.1 hr⟩, ?_⟩
  rw [hs, hq]
  cases v <;>
    simp [Verdict.statusWritten, Verdict.quitCalls, Verdict.reached] at hr ⊢
  all_goals simp [hr]

/-- C17: for every policy and request `Filter` appends `Origin` to the `Vary` response
header, after the values already there, on every outcome; when the request enters the
preflight path (non-empty allowed `Origin`, method `OPTIONS` in `allowedMethods`) it
then appends `Access-Control-Request-Method` and `Access-Control-Request-Headers`, in
that order, whichever of the outcomes 405, 403 and 200 follows; on every other
request `Origin` is the only value appended. -/
theorem C17_vary_values (T : CaseTables) (cors : Cors) (w : Resp) (r : Request) :
    (∃ more, (cors.Filter T w r).header VaryHeader
      = w.header VaryHeader ++ OriginHeader :: more) ∧
    ((r.Header.Get OriginHeader ≠ [] ∧ r.Method = MethodOptions ∧
        MethodOptions ∈ cors.allowedMethods ∧
        cors.isOriginAllowed T (r.Header.Get OriginHeader) = true) →
      (cors.Filter T w r).header VaryHeader =
        w.header VaryHeader
          ++ [OriginHeader, AccessControlRequestMethod, AccessControlRequestHeaders] ∧
      ∃ c, c ∈ [405, 403, 200] ∧ (cors.Filter T w r).status = w.status ++ [c]) ∧
    (¬ (r.Header.Get OriginHeader ≠ [] ∧ r.Method = MethodOptions ∧
        MethodOptions ∈ cors.allowedMethods ∧
        cors.isOriginAllowed T (r.Header.Get OriginHeader) = true) →
      (cors.Filter T w r).header VaryHeader = w.header VaryHeader ++ [OriginHeader]) := by
  obtain ⟨v, hr, hs, _, _, hv⟩ := Filter_verdict T cors w r
  rw [hv, hs]
  have hpre : v.isPreflight = true ↔
      (r.Header.Get OriginHeader ≠ [] ∧ r.Method = MethodOptions ∧
        MethodOptions ∈ cors.allowedMethods ∧
        cors.isOriginAllowed T (r.Header.Get OriginHeader) = true) :=
    Verdict.isPreflight_iff T cors r v hr
  refine ⟨?_, fun hp => ?_, fun hp => ?_⟩
  · cases v <;> exact ⟨_, rfl⟩
  · have hv2 := hpre.2 hp
    cases v <;> first
      | exact absurd hv2 (by decide)
      | exact ⟨rfl, _, by decide, rfl⟩
  · have hv2 : ¬ v.isPreflight = true := fun h => hp (hpre.1 h)
    cases v <;> first
      | exact absurd rfl hv2
      | rfl

/-- C19: for every policy whose `allowedMethods` does not contain `OPTIONS`, every
`OPTIONS` request with a non-empty `Origin` header is refused with status 405 and a
call of `quit`, whatever its origin and its `Access-Control-Request-*` headers; and no
request at all gets status 200 under such a policy. -/
theorem C19_options_not_configured_405 (T : CaseTables) (cors : Cors)
    (hno : MethodOptions ∉ cors.allowedMethods) (w : Resp) (r : Request) :
    ((r.Method = MethodOptions ∧ r.Header.Get OriginHeader ≠ []) →
      (cors.Filter T w r).status = w.status ++ [405] ∧
      (cors.Filter T w r).quits = w.quits + 1) ∧
    (cors.Filter T w r).status ≠ w.status ++ [200] := by
  obtain ⟨v, hr, hs, hq, _, _⟩ := Filter_verdict T cors w r
  rw [hs, hq]
  have hnp : ¬ v.isPreflight = true :=
    fun h => hno ((Verdict.isPreflight_iff T cors r v hr).1 h).2.2.1
  refine ⟨?_, ?_⟩
  · rintro ⟨hopt, ho⟩
    cases v
    · exact absurd hr ho
    · exact ⟨rfl, rfl⟩
    · exact absurd (hopt ▸ hr.2.1) hno
    · exact absurd hopt hr.2.2.2
    · exact absurd rfl hnp
    · exact absurd rfl hnp
    · exact absurd rfl hnp
  · cases v <;> first
      | exact absurd rfl hnp
      | simp [Verdict.statusWritten]

/-- C19, worked example: under `New("*", "GET,POST", "", 0, "", false, nil)` the request
`OPTIONS /` with `Origin: http://a.com` and `Access-Control-Request-Method: DELETE` is
refused with 405. -/
theorem C19_options_not_configured_405_witness :
    MethodOptions ∉ policyStarGetPost.allowedMethods ∧
    (policyStarGetPost.Filter asciiTables emptyResp requestDelete).status = [405] ∧
    (policyStarGetPost.Filter asciiTables emptyResp requestDelete).quits = 1 :=
  have h := (C19_options_not_configured_405 asciiTables policyStarGetPost (by decide)
    emptyResp requestDelete).1 ⟨by decide, by decide⟩
  ⟨by decide, h.1, h.2⟩

/-! ## The policy built by `New` -/

theorem Split_ne_nil (s : GoString) (sep : Char) : Split s sep ≠ [] := by
  cases s with
  | nil => simp [Split]
  | cons c t =>
    simp only [Split]
    split
    · simp
    · split <;> simp

/-- On ASCII text `strings.ToLower` is the ASCII lower-casing, whatever the tables. -/
theorem ToLower_of_ascii (T : CaseTables) (s : GoString) (h : ∀ c ∈ s, c.toNat < 128) :
    ToLower T s = s.map Char.toLower := by
  unfold ToLower
  apply List.map_congr_left
  intro c hc
  exact T.lower_ascii c (h c hc)

/-- The default header set, lower-cased. -/
theorem defaultHeaders_eq (T : CaseTables) :
    Split (ToLower T DefaultAllowHeaders) ',' =
      ["origin".toList, "accept".toList, "content-type".toList, "accept-language".toList,
       "content-language".toList, "last-event-id".toList] := by
  rw [ToLower_of_ascii T DefaultAllowHeaders (by decide)]
  decide

/-- The default method set. -/
theorem defaultMethods_eq :
    Split DefaultAllowMethods ',' = [MethodGet, MethodPost, MethodHead, MethodOptions] := by
  decide

/-- The method, header and expose fields of the policy built by `New`. -/
theorem builtPolicy_fields (T : CaseTables) (ao am ah : GoString) (n : Int) (eh : GoString)
    (cred : Bool) :
    (builtPolicy T ao am ah n eh cred).allowedMethods ≠ [] ∧
    (builtPolicy T ao am ah n eh cred).allowedHeaders ≠ [] ∧
    (am = [] → (builtPolicy T ao am ah n eh cred).allowedMethods
      = [MethodGet, MethodPost, MethodHead, MethodOptions]) ∧
    (ah = [] → (builtPolicy T ao am ah n eh cred).allowedHeaders =
      ["origin".toList, "accept".toList, "content-type".toList, "accept-language".toList,
       "content-language".toList, "last-event-id".toList]) ∧
    ((builtPolicy T ao am ah n eh cred).exposeHeader = true ↔ eh ≠ []) := by
  refine ⟨?_, ?_, ?_, ?_, ?_⟩
  · simp only [builtPolicy]
    split <;> exact Split_ne_nil _ _
  · simp only [builtPolicy]
    split <;> exact Split_ne_nil _ _
  · intro h
    subst h
    simp only [builtPolicy]
    rw [if_neg (by simp)]
    exact defaultMethods_eq
  · intro h
    subst h
    simp only [builtPolicy]
    rw [if_neg (by simp)]
    exact defaultHeaders_eq T
  · simp only [builtPolicy, decide_eq_true_eq, List.length_pos]

/-! ## The raw strings echoed by a successful preflight -/

/-- C16, the code at the failing input: the policy of `DefaultNew` (and likewise the
policy of `New` with empty methods and headers strings) accepts the default methods
and headers, but its stored raw strings are empty; split on commas they give the one
empty entry, not the accepted sets, and the successful preflight answers with an empty
`Access-Control-Allow-Methods` and an empty `Access-Control-Allow-Headers`. -/
theorem C16_default_policy_raw_strings_empty :
    (DefaultNew asciiTables).allowedMethods
      = [MethodGet, MethodPost, MethodHead, MethodOptions] ∧
    (DefaultNew asciiTables).allowedMethodsString = [] ∧
    Split (ToUpper asciiTables (DefaultNew asciiTables).allowedMethodsString) ',' = [[]] ∧
    (DefaultNew asciiTables).allowedHeaders ≠ [[]] ∧
    (DefaultNew asciiTables).allowHeadersString = [] ∧
    Split (ToLower asciiTables (DefaultNew asciiTables).allowHeadersString) ',' = [[]] ∧
    ((DefaultNew asciiTables).Filter asciiTables emptyResp requestPreflightGet).status
      = [200] ∧
    ((DefaultNew asciiTables).Filter asciiTables emptyResp requestPreflightGet).header
      AccessControlAllowMethods = [[]] ∧
    ((DefaultNew asciiTables).Filter asciiTables emptyResp requestPreflightGet).header
      AccessControlAllowHeaders = [[]] ∧
    New asciiTables "*".toList [] [] 0 [] false = some policyStar ∧
    policyStar.allowedMethodsString = [] ∧
    (policyStar.Filter asciiTables emptyResp requestPreflightGet).header
      AccessControlAllowMethods = [[]] :=
  ⟨by decide, by decide, by decide, by decide, by decide, by decide, by decide, by decide,
    by decide, New_eq_some asciiTables "*".toList [] [] 0 [] false, by decide, by decide⟩

/-! ## What the policy advertises and what it accepts -/

/-- C20, the code at the failing input: the policy built from the headers string
`X-A, X-B` stores that string for `Access-Control-Allow-Headers`, but the entries of
the allowed set are not trimmed, so the set holds ` x-b` with its blank.  The header
check trims the requested tokens: it refuses the stored string itself, the entry ` X-B`
requested alone and the header `X-B`, and the preflight that asks for `X-A, X-B` ends
with 403.  The first entry, `X-A`, passes. -/
theorem C20_advertised_headers_refused :
    New asciiTables "*".toList [] "X-A, X-B".toList 0 [] false = some policyXAXB ∧
    policyXAXB.allowHeadersString = "X-A, X-B".toList ∧
    policyXAXB.allowedHeaders = ["x-a".toList, " x-b".toList] ∧
    policyXAXB.areReqHeadersAllowed asciiTables policyXAXB.allowHeadersString = false ∧
    " X-B".toList ∈ Split "X-A, X-B".toList ',' ∧
    policyXAXB.areReqHeadersAllowed asciiTables " X-B".toList = false ∧
    policyXAXB.areReqHeadersAllowed asciiTables "X-B".toList = false ∧
    policyXAXB.areReqHeadersAllowed asciiTables "X-A".toList = true ∧
    (policyXAXB.Filter asciiTables emptyResp requestXAXB).status = [403] :=
  ⟨New_eq_some asciiTables "*".toList [] "X-A, X-B".toList 0 [] false, by decide, by decide,
    by decide, by decide, by decide, by decide, by decide, by decide⟩

/-! ## Case folding, splitting and trimming -/

theorem ascii_separator_facts : ∀ n : Nat, n < 128 →
    (isSeparator (Char.ofNat n) = true ∨ isSeparator (Char.ofNat n).toLower = true) →
    (Char.ofNat n).toLower = Char.ofNat n := by
  decide

/-- The ASCII tables keep the separators. -/
theorem asciiTables_keepsSeparators : KeepsSeparators asciiTables := by
  intro c h
  show c.toLower = c
  by_cases hc : c.toNat ≥ 65 ∧ c.toNat ≤ 90
  · have h128 : c.toNat < 128 := by omega
    have := ascii_separator_facts c.toNat h128
    rw [Char.ofNat_toNat] at this
    exact this h
  · simp only [Char.toLower, hc, if_false]

theorem KeepsSeparators.comma {T : CaseTables} (hT : KeepsSeparators T) (c : Char) :
    T.lower c = ',' ↔ c = ',' := by
  constructor
  · intro h
    have := hT c (Or.inr (by rw [h]; decide))
    rw [← this, h]
  · rintro rfl
    exact hT ',' (Or.inl (by decide))

theorem KeepsSeparators.space {T : CaseTables} (hT : KeepsSeparators T) (c : Char) :
    isSpace (T.lower c) = isSpace c := by
  cases h1 : isSpace (T.lower c)
  · cases h2 : isSpace c
    · rfl
    · have := hT c (Or.inl (by simp [isSeparator, h2]))
      rw [this, h2] at h1
      exact absurd h1 (by decide)
  · have := hT c (Or.inr (by simp [isSeparator, h1]))
    rw [this] at h1
    exact h1.symm

theorem KeepsSeparators.newline {T : CaseTables} (hT : KeepsSeparators T) (c : Char)
    (h : T.lower c = Char.ofNat 10) : c = Char.ofNat 10 := by
  have := hT c (Or.inr (by rw [h]; decide))
  rw [← this, h]

/-- Splitting commutes with a character map that sends only the separator to the
separator. -/
theorem Split_map (f : Char → Char) (sep : Char) (hf : ∀ c, f c = sep ↔ c = sep)
    (s : GoString) : Split (s.map f) sep = (Split s sep).map (List.map f) := by
  induction s with
  | nil => rfl
  | cons c t ih =>
    simp only [List.map_cons, Split, hf c]
    by_cases hc : c = sep
    · simp [hc, ih]
    · simp only [hc, if_false, ih]
      cases hsp : Split t sep with
      | nil => rfl
      | cons x xs => rfl

/-- Trimming commutes with a character map that keeps white space. -/
theorem TrimSpace_map (f : Char → Char) (hf : ∀ c, isSpace (f c) = isSpace c)
    (s : GoString) : TrimSpace (s.map f) = (TrimSpace s).map f := by
  have hcomp : (isSpace ∘ f) = isSpace := funext hf
  unfold TrimSpace
  rw [List.dropWhile_map, hcomp, ← List.map_reverse, List.dropWhile_map, hcomp,
    ← List.map_reverse]

theorem Split_ToLower {T : CaseTables} (hT : KeepsSeparators T) (s : GoString) :
    Split (ToLower T s) ',' = (Split s ',').map (ToLower T) :=
  Split_map T.lower ',' hT.comma s

theorem TrimSpace_ToLower {T : CaseTables} (hT : KeepsSeparators T) (s : GoString) :
    TrimSpace (ToLower T s) = ToLower T (TrimSpace s) :=
  TrimSpace_map T.lower hT.space s

/-! ## Matching a pattern against the text it was built from -/

theorem matchStar_of_continuation (k : GoString → Bool) (a : Atom) (s : GoString)
    (h : k s = true) : matchStar k a s = true := by
  cases s with
  | nil => exact h
  | cons c t => simp [matchStar, h]

/-- A starred atom absorbs any run of characters it accepts. -/
theorem matchStar_append (k : GoString → Bool) (a : Atom) (y z : GoString)
    (hy : ∀ c ∈ y, a.accepts c = true) (hz : k z = true) :
    matchStar k a (y ++ z) = true := by
  induction y with
  | nil => exact matchStar_of_continuation k a z hz
  | cons c t ih =>
    have hc := hy c (List.mem_cons_self c t)
    have ht := ih (fun d hd => hy d (List.mem_cons_of_mem c hd))
    simp [matchStar, hc, ht]

/-- The pattern of an entry matches the entry itself, whatever follows it: a literal
matches its character, and `.` and `.*` match the `?` and `*` they were made from. -/
theorem matchHere_self (e t : GoString) :
    matchHere (e.map globPiece) (e ++ t) = true := by
  induction e with
  | nil => simp [matchHere]
  | cons c u ih =>
    by_cases hstar : c = '*'
    · subst hstar
      have h1 : matchStar (matchHere (u.map globPiece)) Atom.anyNotNL (u ++ t) = true :=
        matchStar_of_continuation _ _ _ ih
      simp [globPiece, matchHere, matchStar, Atom.accepts, h1]
    · by_cases hq : c = '?'
      · subst hq
        simp [globPiece, matchHere, Atom.accepts, ih]
      · simp [globPiece, hstar, hq, matchHere, Atom.accepts, ih]

theorem MatchString_of_matchHere (re : Regexp) (s : GoString) (h : matchHere re s = true) :
    MatchString re s = true := by
  cases s with
  | nil => exact h
  | cons c t => simp [MatchString, h]

/-! ## Origins: case variants and the glob translation -/

/-- C13: `isOriginAllowed` is reflexive under case-folding.  For lower-case tables that
keep white space and the comma, for every configuration, `New` returns a policy such
that for every entry of the comma-separated origins string and every string whose
lower-casing equals that of the trimmed entry (the string differs from the entry only
in letter case), `isOriginAllowed` accepts the string. -/
theorem C13_origin_case_variants_allowed (T : CaseTables) (hT : KeepsSeparators T)
    (ao am ah : GoString) (n : Int) (eh : GoString) (cred : Bool) (e s : GoString)
    (he : e ∈ Split ao ',') (hs : ToLower T s = ToLower T (TrimSpace e)) :
    ∃ cors, New T ao am ah n eh cred = some cors ∧ cors.isOriginAllowed T s = true := by
  refine ⟨builtPolicy T ao am ah n eh cred, New_eq_some T ao am ah n eh cred, ?_⟩
  unfold Cors.isOriginAllowed
  by_cases hall : 0 < ao.length ∧ ao ≠ "*".toList
  · have h1 : (builtPolicy T ao am ah n eh cred).allowAllOrigins = false := by
      simp only [builtPolicy]; rw [decide_eq_true hall]; rfl
    have h2 : (builtPolicy T ao am ah n eh cred).allowedOrigins
        = (Split (ToLower T ao) ',').map globRegexp := by
      simp only [builtPolicy]; rw [if_pos hall]
    rw [h1, h2, Split_ToLower hT]
    simp only [Bool.false_eq_true, if_false, List.any_eq_true, List.mem_map]
    refine ⟨globRegexp (ToLower T e), ⟨ToLower T e, ⟨e, he, rfl⟩, rfl⟩, ?_⟩
    apply MatchString_of_matchHere
    unfold globRegexp
    rw [TrimSpace_ToLower hT, hs]
    have := matchHere_self (ToLower T (TrimSpace e)) []
    rw [List.append_nil] at this
    exact this
  · have h1 : (builtPolicy T ao am ah n eh cred).allowAllOrigins = true := by
      simp only [builtPolicy]; rw [decide_eq_false hall]; rfl
    rw [h1]
    rfl

/-- C13, worked example: with the origins `http://A.com, https://b.org` configured, the
upper-case `HTTPS://B.ORG` is a case variant of the second entry and is allowed. -/
theorem C13_origin_case_variants_allowed_witness :
    " https://b.org".toList ∈ Split "http://A.com, https://b.org".toList ',' ∧
    ToLower asciiTables "HTTPS://B.ORG".toList
      = ToLower asciiTables (TrimSpace " https://b.org".toList) ∧
    ∃ cors, New asciiTables "http://A.com, https://b.org".toList [] [] 0 [] false
        = some cors ∧
      cors.isOriginAllowed asciiTables "HTTPS://B.ORG".toList = true :=
  ⟨by decide, by decide,
    C13_origin_case_variants_allowed asciiTables asciiTables_keepsSeparators
      "http://A.com, https://b.org".toList [] [] 0 [] false " https://b.org".toList
      "HTTPS://B.ORG".toList (by decide) (by decide)⟩

/-- For ASCII configuration and ASCII origin the decision does not depend on the case
tables. -/
theorem isOriginAllowed_of_ascii (T : CaseTables) (ao am ah : GoString) (n : Int)
    (eh : GoString) (cred : Bool) (o : GoString)
    (hao : ∀ c ∈ ao, c.toNat < 128) (ho : ∀ c ∈ o, c.toNat < 128) :
    (builtPolicy T ao am ah n eh cred).isOriginAllowed T o
      = (builtPolicy asciiTables ao [] [] 0 [] false).isOriginAllowed asciiTables o := by
  unfold Cors.isOriginAllowed
  simp only [builtPolicy]
  rw [ToLower_of_ascii T ao hao, ToLower_of_ascii T o ho,
    ToLower_of_ascii asciiTables ao hao, ToLower_of_ascii asciiTables o ho]

theorem matchHere_literal_append (p : GoString) (re : Regexp) (y : GoString) :
    matchHere (p.map (fun c => Piece.one (Atom.lit c)) ++ re) (p ++ y) = matchHere re y := by
  induction p with
  | nil => rfl
  | cons c t ih => simp [matchHere, Atom.accepts, ih]

/-- The policy built from `https://*.example.com` has the one pattern
`exampleGlobRegexp` and does not allow all origins. -/
theorem exampleGlob_policy (T : CaseTables) (am ah : GoString) (n : Int) (eh : GoString)
    (cred : Bool) :
    (builtPolicy T exampleGlob am ah n eh cred).allowAllOrigins = false ∧
    (builtPolicy T exampleGlob am ah n eh cred).allowedOrigins = [exampleGlobRegexp] := by
  constructor
  · simp only [builtPolicy]
    rw [decide_eq_true (by decide)]
    rfl
  · simp only [builtPolicy]
    rw [if_pos (by decide), ToLower_of_ascii T exampleGlob (by decide)]
    decide

/-- C14: glob translation.  For the policy `New` builds from the origin configuration
`https://*.example.com`, `isOriginAllowed` accepts `https://a.example.com` and
`https://a.b.example.com`; for lower-case tables that keep white space and the comma
it accepts `https://` + x + `.example.com` for every string x without a newline; and
it refuses `https://example.com` and `http://a.example.com`. -/
theorem C14_glob_translation (T : CaseTables) (am ah : GoString) (n : Int) (eh : GoString)
    (cred : Bool) :
    ∃ cors, New T "https://*.example.com".toList am ah n eh cred = some cors ∧
      cors.isOriginAllowed T "https://a.example.com".toList = true ∧
      cors.isOriginAllowed T "https://a.b.example.com".toList = true ∧
      (KeepsSeparators T → ∀ x : GoString, Char.ofNat 10 ∉ x →
        cors.isOriginAllowed T ("https://".toList ++ x ++ ".example.com".toList) = true) ∧
      cors.isOriginAllowed T "https://example.com".toList = false ∧
      cors.isOriginAllowed T "http://a.example.com".toList = false := by
  refine ⟨builtPolicy T exampleGlob am ah n eh cred,
    New_eq_some T exampleGlob am ah n eh cred, ?_, ?_, ?_, ?_, ?_⟩
  · rw [isOriginAllowed_of_ascii T exampleGlob am ah n eh cred _ (by decide) (by decide)]
    decide
  · rw [isOriginAllowed_of_ascii T exampleGlob am ah n eh cred _ (by decide) (by decide)]
    decide
  · intro hT x hx
    obtain ⟨hall, hpat⟩ := exampleGlob_policy T am ah n eh cred
    unfold Cors.isOriginAllowed
    rw [hall, hpat]
    simp only [Bool.false_eq_true, if_false, List.any_cons, List.any_nil, Bool.or_false]
    apply MatchString_of_matchHere
    have hlow : ToLower T ("https://".toList ++ x ++ ".example.com".toList)
        = "https://".toList ++ (ToLower T x ++ ".example.com".toList) := by
      unfold ToLower
      rw [List.map_append, List.map_append, List.append_assoc]
      have h1 := ToLower_of_ascii T "https://".toList (by decide)
      have h2 := ToLower_of_ascii T ".example.com".toList (by decide)
      unfold ToLower at h1 h2
      rw [h1, h2]
      rfl
    rw [hlow]
    unfold exampleGlobRegexp
    rw [matchHere_literal_append]
    show matchStar (matchHere _) Atom.anyNotNL (ToLower T x ++ ".example.com".toList) = true
    apply matchStar_append
    · intro c hc
      obtain ⟨d, hd, rfl⟩ := List.mem_map.1 hc
      have hne : T.lower d ≠ Char.ofNat 10 := fun h => hx (hT.newline d h ▸ hd)
      simp [Atom.accepts, hne]
    · exact (matchHere_literal _ _).2 (List.prefix_refl _)
  · rw [isOriginAllowed_of_ascii T exampleGlob am ah n eh cred _ (by decide) (by decide)]
    decide
  · rw [isOriginAllowed_of_ascii T exampleGlob am ah n eh cred _ (by decide) (by decide)]
    decide

/-- C14, worked example: with the ASCII tables the origin `https://x.y.example.com`,
of the shape `https://` + x + `.example.com`, is allowed. -/
theorem C14_glob_translation_witness :
    ∃ cors, New asciiTables "https://*.example.com".toList [] [] 0 [] false = some cors ∧
      cors.isOriginAllowed asciiTables
        ("https://".toList ++ "x.y".toList ++ ".example.com".toList) = true ∧
      cors.isOriginAllowed asciiTables "https://example.com".toList = false := by
  obtain ⟨cors, hnew, _, _, hx, hno, _⟩ :=
    C14_glob_translation asciiTables [] [] 0 [] false
  exact ⟨cors, hnew, hx asciiTables_keepsSeparators "x.y".toList (by decide), hno⟩

/-! ## The header check and letter case -/

theorem isHeaderAllowed_CanonicalHeaderKey (T : CaseTables) (cors : Cors) (h : GoString) :
    cors.isHeaderAllowed T (CanonicalHeaderKey h) = cors.isHeaderAllowed T h := by
  unfold Cors.isHeaderAllowed
  simp only [ToLower_CanonicalHeaderKey]

/-- The header check sees the requested list only through its lower-casing. -/
theorem areReqHeadersAllowed_iff_lower {T : CaseTables} (hT : KeepsSeparators T)
    (cors : Cors) (s : GoString) :
    cors.areReqHeadersAllowed T s = true ↔
      (ToLower T s = [] ∨
        ∀ t ∈ Split (ToLower T s) ',', TrimSpace t ∈ cors.allowedHeaders) := by
  rw [areReqHeadersAllowed_iff, Split_ToLower hT]
  have h1 : ToLower T s = [] ↔ s = [] := List.map_eq_nil_iff
  rw [h1, List.forall_mem_map]
  constructor
  · rintro (h | h)
    · exact Or.inl h
    · exact Or.inr fun t ht => by rw [TrimSpace_ToLower hT]; exact h t ht
  · rintro (h | h)
    · exact Or.inl h
    · exact Or.inr fun t ht => by rw [← TrimSpace_ToLower hT]; exact h t ht

theorem Split_of_no_sep (s : GoString) (sep : Char) (h : sep ∉ s) : Split s sep = [s] := by
  induction s with
  | nil => rfl
  | cons c t ih =>
    have hc : c ≠ sep := fun hcs => h (hcs ▸ List.mem_cons_self c t)
    have ht : sep ∉ t := fun hm => h (List.mem_cons_of_mem c hm)
    simp [Split, hc, ih ht]

theorem dropWhile_of_all_false (p : Char → Bool) (s : GoString)
    (h : ∀ c ∈ s, p c = false) : s.dropWhile p = s := by
  cases s with
  | nil => rfl
  | cons c t => simp [List.dropWhile, h c (List.mem_cons_self c t)]

theorem TrimSpace_of_no_space (s : GoString) (h : ∀ c ∈ s, isSpace c = false) :
    TrimSpace s = s := by
  unfold TrimSpace
  rw [dropWhile_of_all_false isSpace s h,
    dropWhile_of_all_false isSpace s.reverse (fun c hc => h c (List.mem_reverse.1 hc)),
    List.reverse_reverse]

theorem ascii_token_facts : ∀ n : Nat, n < 128 →
    validHeaderFieldByte (Char.ofNat n) = true →
    isSpace (Char.ofNat n) = false ∧ Char.ofNat n ≠ ',' := by
  decide

theorem validHeaderFieldByte_not_separator {c : Char} (h : validHeaderFieldByte c = true) :
    isSpace c = false ∧ c ≠ ',' := by
  have := ascii_token_facts c.toNat (validHeaderFieldByte_ascii h)
  rw [Char.ofNat_toNat] at this
  exact this h

/-- What holds of the header check and letter case.  For every policy and every string
`s`, `areReqHeadersAllowed(s)` returns what the variant without
`http.CanonicalHeaderKey` returns.  For lower-case tables that keep white space and
the comma, the result is the same for two request strings with the same lower-casing,
and for every policy built by `New` an entry of the configured headers string that
consists of header field bytes only (so has no white space around it) is accepted in
every case variant. -/
theorem areReqHeadersAllowed_case_insensitive (T : CaseTables) (cors : Cors) :
    (∀ s : GoString,
      cors.areReqHeadersAllowed T s = cors.areReqHeadersAllowedNoCanon T s) ∧
    (KeepsSeparators T → ∀ s s2 : GoString, ToLower T s = ToLower T s2 →
      cors.areReqHeadersAllowed T s = cors.areReqHeadersAllowed T s2) ∧
    (KeepsSeparators T → ∀ (ao am ah : GoString) (n : Int) (eh : GoString) (cred : Bool)
      (h h2 : GoString), h ∈ Split ah ',' → h.all validHeaderFieldByte = true →
      ToLower T h2 = ToLower T h →
      ∃ p, New T ao am ah n eh cred = some p ∧ p.areReqHeadersAllowed T h2 = true) := by
  refine ⟨?_, ?_, ?_⟩
  · intro s
    unfold Cors.areReqHeadersAllowed Cors.areReqHeadersAllowedNoCanon
    simp only [isHeaderAllowed_CanonicalHeaderKey]
  · intro hT s s2 hs
    rw [Bool.eq_iff_iff, areReqHeadersAllowed_iff_lower hT, areReqHeadersAllowed_iff_lower hT,
      hs]
  · intro hT ao am ah n eh cred h h2 hmem hvalid hcase
    refine ⟨builtPolicy T ao am ah n eh cred, New_eq_some T ao am ah n eh cred, ?_⟩
    rw [areReqHeadersAllowed_iff_lower hT, hcase]
    by_cases hnil : h = []
    · left
      rw [hnil]
      rfl
    · right
      have hv : ∀ c ∈ h, validHeaderFieldByte c = true := List.all_eq_true.1 hvalid
      have hah : 0 < ah.length := by
        rw [List.length_pos]
        rintro rfl
        simp only [Split, List.mem_singleton] at hmem
        exact hnil hmem
      have hset : (builtPolicy T ao am ah n eh cred).allowedHeaders
          = (Split ah ',').map (ToLower T) := by
        simp only [builtPolicy]
        rw [if_pos hah, Split_ToLower hT]
      have hnocomma : ',' ∉ ToLower T h := by
        intro hc
        obtain ⟨d, hd, hdc⟩ := List.mem_map.1 hc
        have := (hT.comma d).1 hdc
        exact (validHeaderFieldByte_not_separator (hv d hd)).2 this
      have hnospace : ∀ c ∈ ToLower T h, isSpace c = false := by
        intro c hc
        obtain ⟨d, hd, rfl⟩ := List.mem_map.1 hc
        rw [hT.space]
        exact (validHeaderFieldByte_not_separator (hv d hd)).1
      rw [Split_of_no_sep _ _ hnocomma]
      intro t ht
      rw [List.mem_singleton] at ht
      rw [ht, TrimSpace_of_no_space _ hnospace, hset]
      exact List.mem_map.2 ⟨h, hmem, rfl⟩

/-- With `Accept,X-Custom-Header` configured, written without a blank, the request
`x-CUSTOM-header` passes the header check. -/
theorem areReqHeadersAllowed_case_insensitive_example :
    ∃ p, New asciiTables "*".toList [] "Accept,X-Custom-Header".toList 0 [] false = some p ∧
      p.areReqHeadersAllowed asciiTables "x-CUSTOM-header".toList = true :=
  (areReqHeadersAllowed_case_insensitive asciiTables (DefaultNew asciiTables)).2.2
    asciiTables_keepsSeparators "*".toList [] "Accept,X-Custom-Header".toList 0 [] false
    "X-Custom-Header".toList "x-CUSTOM-header".toList (by decide) (by decide) (by decide)

/-- C18, the code at the failing input: the policy built from the headers string
`Accept, X-Custom-Header` has `X-Custom-Header` configured in mixed case, as the entry
` X-Custom-Header` with the blank that follows the comma.  `New` does not trim the
entry, so the allowed set holds ` x-custom-header`; the header check trims the
requested token, so `X-Custom-Header` is refused as configured, in lower case, in upper
case, and in every other string with the same lower-casing, and the preflight that
asks for it ends with 403.  The canonicalisation plays no part in the refusal: the
variant without `http.CanonicalHeaderKey` refuses the header as well. -/
theorem C18_configured_header_refused_in_every_case :
    New asciiTables "*".toList [] "Accept, X-Custom-Header".toList 0 [] false
      = some policySpacedHeader ∧
    " X-Custom-Header".toList ∈ Split "Accept, X-Custom-Header".toList ',' ∧
    policySpacedHeader.allowedHeaders = ["accept".toList, " x-custom-header".toList] ∧
    policySpacedHeader.areReqHeadersAllowed asciiTables "X-Custom-Header".toList = false ∧
    policySpacedHeader.areReqHeadersAllowed asciiTables "x-custom-header".toList = false ∧
    policySpacedHeader.areReqHeadersAllowed asciiTables "X-CUSTOM-HEADER".toList = false ∧
    (∀ h2 : GoString,
      ToLower asciiTables h2 = ToLower asciiTables "X-Custom-Header".toList →
      policySpacedHeader.areReqHeadersAllowed asciiTables h2 = false) ∧
    policySpacedHeader.areReqHeadersAllowedNoCanon asciiTables "X-Custom-Header".toList
      = false ∧
    policySpacedHeader.areReqHeadersAllowed asciiTables "Accept".toList = true ∧
    (policySpacedHeader.Filter asciiTables emptyResp requestCustomHeader).status = [403] := by
  refine ⟨New_eq_some asciiTables "*".toList [] "Accept, X-Custom-Header".toList 0 [] false,
    by decide, by decide, by decide, by decide, by decide, ?_, by decide, by decide,
    by decide⟩
  intro h2 hcase
  cases hb : policySpacedHeader.areReqHeadersAllowed asciiTables h2
  · rfl
  · exfalso
    rw [areReqHeadersAllowed_iff_lower asciiTables_keepsSeparators, hcase] at hb
    revert hb
    decide

/-! ## The invariants of the policy built by `New` -/

/-- C15: for every configuration `New` returns a policy in which `allowAllOrigins` is
true if and only if the origins string is empty or exactly `*`; the list of compiled
origin patterns is non-empty if and only if `allowAllOrigins` is false, and then has
one pattern per comma-separated entry of the case-folded origins string (which, for
lower-case tables that keep the comma, has the entries of the origins string itself);
`allowedMethods` and `allowedHeaders` are non-empty and are the default sets
(`GET,POST,HEAD,OPTIONS`; the lower-cased default header list) when the respective
configuration string is empty; and the expose flag is set if and only if the
exposed-headers string is non-empty. -/
theorem C15_New_policy_invariants (T : CaseTables) (ao am ah : GoString) (n : Int)
    (eh : GoString) (cred : Bool) :
    ∃ cors, New T ao am ah n eh cred = some cors ∧
      (cors.allowAllOrigins = true ↔ (ao = [] ∨ ao = "*".toList)) ∧
      (cors.allowedOrigins ≠ [] ↔ cors.allowAllOrigins = false) ∧
      (cors.allowAllOrigins = false →
        cors.allowedOrigins.length = (Split (ToLower T ao) ',').length) ∧
      (KeepsSeparators T → (Split (ToLower T ao) ',').length = (Split ao ',').length) ∧
      cors.allowedMethods ≠ [] ∧
      cors.allowedHeaders ≠ [] ∧
      (am = [] → cors.allowedMethods = [MethodGet, MethodPost, MethodHead, MethodOptions]) ∧
      (ah = [] → cors.allowedHeaders =
        ["origin".toList, "accept".toList, "content-type".toList, "accept-language".toList,
         "content-language".toList, "last-event-id".toList]) ∧
      (cors.exposeHeader = true ↔ eh ≠ []) := by
  refine ⟨builtPolicy T ao am ah n eh cred, New_eq_some T ao am ah n eh cred, ?_⟩
  have hcond : (0 < ao.length ∧ ao ≠ "*".toList) ↔ ¬ (ao = [] ∨ ao = "*".toList) := by
    rw [List.length_pos]; tauto
  have hlen : KeepsSeparators T →
      (Split (ToLower T ao) ',').length = (Split ao ',').length := by
    intro hT
    rw [Split_ToLower hT, List.length_map]
  by_cases hall : 0 < ao.length ∧ ao ≠ "*".toList
  · have h1 : (builtPolicy T ao am ah n eh cred).allowAllOrigins = false := by
      simp only [builtPolicy]; rw [decide_eq_true hall]; rfl
    have h2 : (builtPolicy T ao am ah n eh cred).allowedOrigins
        = (Split (ToLower T ao) ',').map globRegexp := by
      simp only [builtPolicy]; rw [if_pos hall]
    refine ⟨?_, ?_, ?_, hlen, ?_⟩
    · rw [h1]
      exact ⟨fun h => absurd h (by decide), fun h => absurd h (hcond.1 hall)⟩
    · rw [h1, h2]
      refine ⟨fun _ => rfl, fun _ h => ?_⟩
      exact Split_ne_nil _ _ (List.map_eq_nil_iff.1 h)
    · intro _
      rw [h2, List.length_map]
    · exact builtPolicy_fields T ao am ah n eh cred
  · have h1 : (builtPolicy T ao am ah n eh cred).allowAllOrigins = true := by
      simp only [builtPolicy]; rw [decide_eq_false hall]; rfl
    have h2 : (builtPolicy T ao am ah n eh cred).allowedOrigins = [] := by
      simp only [builtPolicy]; rw [if_neg hall]
    refine ⟨?_, ?_, ?_, hlen, ?_⟩
    · rw [h1]
      exact ⟨fun _ => by_contra fun h => hall (hcond.2 h), fun _ => rfl⟩
    · rw [h1, h2]
      exact ⟨fun h => absurd rfl h, fun h => absurd h (by decide)⟩
    · intro h
      rw [h1] at h
      exact absurd h (by decide)
    · exact builtPolicy_fields T ao am ah n eh cred

/-- For non-empty methods and headers strings the stored raw strings do agree with the
parsed sets. -/
theorem New_raw_strings_agree (T : CaseTables) (ao am ah : GoString) (n : Int)
    (eh : GoString) (cred : Bool) (hm : am ≠ []) (hh : ah ≠ []) :
    Split (ToUpper T (builtPolicy T ao am ah n eh cred).allowedMethodsString) ','
      = (builtPolicy T ao am ah n eh cred).allowedMethods ∧
    Split (ToLower T (builtPolicy T ao am ah n eh cred).allowHeadersString) ','
      = (builtPolicy T ao am ah n eh cred).allowedHeaders := by
  simp only [builtPolicy]
  rw [if_pos (List.length_pos.2 hm), if_pos (List.length_pos.2 hh)]
  exact ⟨rfl, rfl⟩

/-- When no entry of the headers string has white space around it, the stored raw
string passes the header check. -/
theorem advertised_headers_accepted_of_trimmed {T : CaseTables} (hT : KeepsSeparators T)
    (ao am ah : GoString) (n : Int) (eh : GoString) (cred : Bool)
    (htrim : ∀ e ∈ Split ah ',', TrimSpace e = e) :
    (builtPolicy T ao am ah n eh cred).areReqHeadersAllowed T
      (builtPolicy T ao am ah n eh cred).allowHeadersString = true := by
  have hraw : (builtPolicy T ao am ah n eh cred).allowHeadersString = ah := rfl
  rw [hraw, areReqHeadersAllowed_iff_lower hT]
  by_cases hnil : ah = []
  · left
    rw [hnil]
    rfl
  · right
    have hset : (builtPolicy T ao am ah n eh cred).allowedHeaders
        = (Split ah ',').map (ToLower T) := by
      simp only [builtPolicy]
      rw [if_pos (List.length_pos.2 hnil), Split_ToLower hT]
    rw [Split_ToLower hT, List.forall_mem_map, hset]
    intro e he
    rw [TrimSpace_ToLower hT, htrim e he]
    exact List.mem_map.2 ⟨e, he, rfl⟩

end SiestaCors
